import Mathlib

/-!
Verification of the video-sampling and trend-analysis engine of the
sns-analyzer-cloud repository.

The embedding below is a shallow translation of the Python modules
`src/utils/tiktok_fetcher.py` (the sampler), `src/utils/trend_analyzer.py`
(the trend analyzer and its text formatter) and
`src/utils/competitor_analyzer.py` (the comparative aggregator).

Numeric conventions: Python integer counters become `Nat`, day differences
become `Int`, and float arithmetic is modelled by exact rational arithmetic
over `ℚ` (the conventional idealisation of IEEE floats for this kind of
statistics code); Python's `round` (banker's rounding) and `int` truncation
are modelled explicitly.  Python's stable `list.sort` is modelled by a
structurally recursive stable insertion sort so that all definitions remain
kernel-executable.
-/

set_option maxRecDepth 20000

attribute [local semireducible] Rat.add Rat.mul Rat.sub Rat.inv Rat.ofScientific

/-- One post record, mirroring the dicts built in
`fetch_tiktok_videos` (src/utils/tiktok_fetcher.py lines 113-122). -/
structure Video where
  id : String := ""
  title : String := ""
  view_count : Nat := 0
  like_count : Nat := 0
  comment_count : Nat := 0
  upload_date : String := ""
  url : String := ""
  duration : Nat := 0
deriving DecidableEq, Repr, Inhabited

/-! ### Stable sort (model of Python `list.sort`, which is stable) -/

/-- Insert `x` into `l` before the first element `y` with `le x y`;
together with `sSort` this is the unique stable sort for the total
preorder decided by `le`, hence it agrees with Python's stable sort. -/
def sInsert {α : Type} (le : α → α → Bool) (x : α) : List α → List α
  | [] => [x]
  | y :: t => if le x y then x :: y :: t else y :: sInsert le x t

/-- Stable insertion sort. -/
def sSort {α : Type} (le : α → α → Bool) : List α → List α
  | [] => []
  | x :: t => sInsert le x (sSort le t)

/-! ### Python `round` and `int` -/

/-- Python 3 `round(q)` : round half to even, as an integer. -/
def pyRound (q : ℚ) : ℤ :=
  let f := ⌊q⌋
  let r := q - f
  if r < 1/2 then f
  else if 1/2 < r then f + 1
  else if f % 2 = 0 then f else f + 1

/-- Python `round(q, 1)`. -/
def round1 (q : ℚ) : ℚ := (pyRound (q * 10) : ℚ) / 10

/-- Python `round(q, 2)`. -/
def round2 (q : ℚ) : ℚ := (pyRound (q * 100) : ℚ) / 100

/-! ### Calendar dates

`analyze_trends` parses upload dates with
`datetime.strptime(date_str, "%Y-%m-%d")`.  CPython's `strptime` compiles
`%Y-%m-%d` to the regex `\d{4}-(1[0-2]|0[1-9]|[1-9])-(3[01]|[12]\d|0[1-9]|[1-9])`,
requires the whole string to be consumed, and then `datetime(y, m, d)`
validates the day against the month length (year 0 is rejected,
`MINYEAR = 1`).  A successfully parsed date is mapped to its proleptic
Gregorian day number (day 1 = 0001-01-01) so that date subtraction and
`weekday()` become integer operations. -/

/-- Leap year test of the proleptic Gregorian calendar. -/
def isLeapYear (y : Nat) : Bool := y % 4 = 0 && (y % 100 ≠ 0 || y % 400 = 0)

/-- Number of days of month `m` in year `y`. -/
def daysInMonth (y m : Nat) : Nat :=
  if m = 2 then (if isLeapYear y then 29 else 28)
  else if m = 4 ∨ m = 6 ∨ m = 9 ∨ m = 11 then 30
  else 31

/-- Days of year `y` before month `m` (1-based). -/
def daysBeforeMonth (y m : Nat) : Nat :=
  let base :=
    if m = 1 then 0 else if m = 2 then 31 else if m = 3 then 59
    else if m = 4 then 90 else if m = 5 then 120 else if m = 6 then 151
    else if m = 7 then 181 else if m = 8 then 212 else if m = 9 then 243
    else if m = 10 then 273 else if m = 11 then 304 else 334
  base + (if 3 ≤ m ∧ isLeapYear y then 1 else 0)

/-- Proleptic Gregorian day number of `y-m-d`; 0001-01-01 is day 1. -/
def rataDie (y m d : Nat) : Nat :=
  365 * (y - 1) + (y - 1) / 4 - (y - 1) / 100 + (y - 1) / 400
    + daysBeforeMonth y m + d

/-- Numeric value of a list of decimal digit characters. -/
def digitsToNat (cs : List Char) : Nat :=
  cs.foldl (fun a c => a * 10 + (c.toNat - '0'.toNat)) 0

/-- The `%m` field of CPython's strptime: `1[0-2]|0[1-9]|[1-9]`, longest
alternative first.  (When the two-digit alternative matches, the following
character is a digit, never the literal `-` the format expects next, so the
regex engine's backtracking can never switch alternatives afterwards and
this committed choice is faithful.) -/
def matchMonth : List Char → Option (Nat × List Char)
  | c₁ :: c₂ :: rest =>
    if (c₁ = '1' ∧ '0' ≤ c₂ ∧ c₂ ≤ '2') ∨ (c₁ = '0' ∧ '1' ≤ c₂ ∧ c₂ ≤ '9') then
      some (digitsToNat [c₁, c₂], rest)
    else if '1' ≤ c₁ ∧ c₁ ≤ '9' then some (digitsToNat [c₁], c₂ :: rest)
    else none
  | [c₁] =>
    if '1' ≤ c₁ ∧ c₁ ≤ '9' then some (digitsToNat [c₁], []) else none
  | [] => none

/-- The `%d` field (`3[01]|[12]\d|0[1-9]|[1-9]`) which must also consume
the rest of the string (strptime rejects unconsumed input). -/
def matchDayEnd : List Char → Option Nat
  | [c₁, c₂] =>
    if (c₁ = '3' ∧ (c₂ = '0' ∨ c₂ = '1')) ∨
       ((c₁ = '1' ∨ c₁ = '2') ∧ '0' ≤ c₂ ∧ c₂ ≤ '9') ∨
       (c₁ = '0' ∧ '1' ≤ c₂ ∧ c₂ ≤ '9') then
      some (digitsToNat [c₁, c₂])
    else none
  | [c₁] => if '1' ≤ c₁ ∧ c₁ ≤ '9' then some (digitsToNat [c₁]) else none
  | _ => none

/-- `datetime.strptime(s, "%Y-%m-%d")`, returning the day number of the
parsed date, or `none` when parsing or date validation fails. -/
def parseDate (s : String) : Option Nat :=
  match s.data with
  | y₁ :: y₂ :: y₃ :: y₄ :: '-' :: rest =>
    if ([y₁, y₂, y₃, y₄].all Char.isDigit) then
      match matchMonth rest with
      | some (m, '-' :: rest₂) =>
        match matchDayEnd rest₂ with
        | some d =>
          let y := digitsToNat [y₁, y₂, y₃, y₄]
          if 1 ≤ y ∧ d ≤ daysInMonth y m then some (rataDie y m d) else none
        | none => none
      | _ => none
    else none
  | _ => none

/-- Python `date.weekday()`: Monday is 0.  0001-01-01 (day number 1) is a
Monday in the proleptic Gregorian calendar. -/
def weekdayOf (rd : Nat) : Nat := (rd + 6) % 7

/-! ### Sampler (`sample_videos_for_analysis`, src/utils/tiktok_fetcher.py) -/

/-- Used for the (never reached) out-of-range fallback of list indexing. -/
def dummyVideo : Video := {}

/-- `sample_videos_for_analysis(videos, count=5)`:
top 2 + middle 2 + bottom 1 for `n >= 5`, top 2 + bottom 1 for `3 <= n <= 4`,
everything for `n <= 2`. -/
def sample_videos_for_analysis (videos : List Video) (count : Nat := 5) :
    List Video :=
  let n := videos.length
  if n = 0 then []
  else if n ≤ 2 then videos
  else if n ≤ 4 then [videos.getD 0 dummyVideo, videos.getD 1 dummyVideo,
                      videos.getD (n - 1) dummyVideo]
  else
    let mid := n / 2
    let selected := [videos.getD 0 dummyVideo, videos.getD 1 dummyVideo,
                     videos.getD (mid - 1) dummyVideo, videos.getD mid dummyVideo,
                     videos.getD (n - 1) dummyVideo]
    selected.take count

/-! ### Trend analyzer (`analyze_trends`, src/utils/trend_analyzer.py) -/

/-- A video paired with its parsed `_date` (as a day number), mirroring the
`{**v, "_date": dt}` records of `analyze_trends`. -/
abbrev DatedVideo := Video × Nat

/-- `performance_trend` sub-dict.  The per-half means are stored through
`int(...)` (truncation) and the percent changes through `round(..., 1)`,
exactly as in the source. -/
structure PerformanceTrend where
  first_half_avg_views : ℤ
  second_half_avg_views : ℤ
  view_change_pct : ℚ
  first_half_avg_likes : ℤ
  second_half_avg_likes : ℤ
  like_change_pct : ℚ
deriving DecidableEq, Repr, Inhabited

/-- `engagement_trend` sub-dict (rates stored through `round(..., 2)`). -/
structure EngagementTrend where
  first_half_avg_rate : ℚ
  second_half_avg_rate : ℚ
deriving DecidableEq, Repr, Inhabited

/-- One entry of `day_of_week_performance` (`avg_views` stored through
`int(...)`). -/
structure DayStat where
  day : String
  avg_views : ℤ
  post_count : Nat
deriving DecidableEq, Repr, Inhabited

/-- One entry of `viral_outliers`. -/
structure ViralVideo where
  title : String
  views : Nat
  date : String
deriving DecidableEq, Repr, Inhabited

/-- The dict returned by `analyze_trends` on success.  `Option` fields model
keys that the source only sets conditionally (`posting_frequency` is
explicitly set to `None` when the span is zero; the gap keys are only set
when `gaps` is non-empty; `engagement_trend` only when both halves have a
positive-view post).  `day_of_week_performance = []` models the absent key. -/
structure TrendReport where
  posting_frequency : Option ℚ := none
  period_days : ℤ := 0
  total_posts_analyzed : Nat := 0
  avg_gap_days : Option ℚ := none
  max_gap_days : Option ℤ := none
  min_gap_days : Option ℤ := none
  performance_trend : PerformanceTrend := default
  trend_direction : String := ""
  trend_label : String := ""
  engagement_trend : Option EngagementTrend := none
  day_of_week_performance : List DayStat := []
  viral_outliers : List ViralVideo := []
  viral_count : Nat := 0
  average_views : ℤ := 0
deriving DecidableEq, Repr, Inhabited

/-- The date-bearing subset: posts with a non-empty `upload_date` that
`strptime` accepts are kept (in input order) together with their parsed
date; the rest are dropped (`except ValueError: continue`). -/
def dated_videos (videos : List Video) : List DatedVideo :=
  videos.filterMap (fun v =>
    if v.upload_date ≠ "" then (parseDate v.upload_date).map (fun rd => (v, rd))
    else none)

/-- `dated_videos.sort(key=lambda x: x["_date"])` — stable sort by date. -/
def dated_sorted (videos : List Video) : List DatedVideo :=
  sSort (fun a b => a.2 ≤ b.2) (dated_videos videos)

/-- The inner `avg_metric(vids, key)` helper: mean of a metric over a list,
`0` for the empty list. -/
def avg_metric (vids : List DatedVideo) (key : Video → Nat) : ℚ :=
  let vals := vids.map (fun p => (key p.1 : ℚ))
  if vals = [] then 0 else vals.sum / (vals.length : ℚ)

/-- Japanese weekday names (`day_names_ja`). -/
def dayNameJa (dow : Nat) : String :=
  if dow = 0 then "月曜" else if dow = 1 then "火曜" else if dow = 2 then "水曜"
  else if dow = 3 then "木曜" else if dow = 4 then "金曜"
  else if dow = 5 then "土曜" else "日曜"

/-- Insertion-ordered weekday buckets, modelling the `day_performance`
dict (Python dicts iterate in insertion order): each bucket carries the
weekday, its view list and its post count. -/
def addToBuckets (acc : List (Nat × List Nat × Nat)) (dow views : Nat) :
    List (Nat × List Nat × Nat) :=
  match acc with
  | [] => [(dow, [views], 1)]
  | (d, vs, c) :: rest =>
    if d = dow then (d, vs ++ [views], c + 1) :: rest
    else (d, vs, c) :: addToBuckets rest dow views

/-- The `day_performance` dict of `analyze_trends`. -/
def day_performance (ds : List DatedVideo) : List (Nat × List Nat × Nat) :=
  ds.foldl (fun acc p => addToBuckets acc (weekdayOf p.2) p.1.view_count) []

/-- Mean view count over the dated population (`avg_views` in the viral
section). -/
def popMeanViews (ds : List DatedVideo) : ℚ :=
  ((ds.map (fun p => (p.1.view_count : ℚ))).sum) / (ds.length : ℚ)

/-- Population variance of the view counts (`std_dev ** 2`; the source
takes `(... ) ** 0.5` and compares against `mean + 2 * std_dev`, which the
executable predicate `viralB` below re-expresses without the square root). -/
def popVarViews (ds : List DatedVideo) : ℚ :=
  ((ds.map (fun p =>
    ((p.1.view_count : ℚ) - popMeanViews ds) * ((p.1.view_count : ℚ) - popMeanViews ds))).sum)
    / (ds.length : ℚ)

/-- Exact rational form of the source's viral test
`views > threshold and threshold > 0` with
`threshold = mean + 2*std_dev if std_dev > 0 else mean * 3`:
for `var > 0` (⟺ `std_dev > 0`), `x > μ + 2√var ⟺ μ < x ∧ 4·var < (x-μ)²`
and `μ + 2√var > 0 ⟺ 0 < μ ∨ μ² < 4·var`; the equivalence with the
square-root formulation over `ℝ` is proved in `viralB_iff_real`. -/
def viralB (μ var x : ℚ) : Bool :=
  if 0 < var then
    ((μ < x) && (4 * var < (x - μ) * (x - μ))) && ((0 < μ) || (μ * μ < 4 * var))
  else
    (3 * μ < x) && (0 < 3 * μ)

/-- The `viral_videos` selection of `analyze_trends` (before rendering into
title/views/date records): dated posts, in date order, whose view count
passes the threshold test. -/
def viral_list (ds : List DatedVideo) : List DatedVideo :=
  ds.filter (fun p => viralB (popMeanViews ds) (popVarViews ds) p.1.view_count)

/-- `first_half = dated_videos[:mid]` with `mid = len(dated_videos) // 2`. -/
def first_half (videos : List Video) : List DatedVideo :=
  (dated_sorted videos).take ((dated_sorted videos).length / 2)

/-- `second_half = dated_videos[mid:]`. -/
def second_half (videos : List Video) : List DatedVideo :=
  (dated_sorted videos).drop ((dated_sorted videos).length / 2)

/-- The engagement-rate list of one half: `like_count / view_count * 100`
for each post with positive views, zero-view posts skipped. -/
def eng_rates (half : List DatedVideo) : List ℚ :=
  half.filterMap (fun p =>
    if 0 < p.1.view_count then
      some ((p.1.like_count : ℚ) / (p.1.view_count : ℚ) * 100)
    else none)

/-- The consecutive day-gap sequence of the date-sorted subset
(`gaps` in `analyze_trends`): `dates[i] - dates[i-1]` for `i = 1..`. -/
def gapsOf (videos : List Video) : List ℤ :=
  let dates := (dated_sorted videos).map (·.2)
  List.zipWith (fun next prev => (next : ℤ) - (prev : ℤ)) dates.tail dates

/-- The body of `analyze_trends` after its precondition checks: assembles
the full trend report from the date-sorted subset. -/
def analyze_core (videos : List Video) : TrendReport :=
  let ds := dated_sorted videos
  let dates : List Nat := ds.map (·.2)
  let total_days : ℤ := (dates.getLastD 0 : ℤ) - (dates.headD 0 : ℤ)
  let posting_frequency : Option ℚ :=
    if 0 < total_days then some (round1 ((ds.length : ℚ) / ((total_days : ℚ) / 7)))
    else none
  let period_days : ℤ := if 0 < total_days then total_days else 0
  let gaps : List ℤ := gapsOf videos
  let gapFields : Option ℚ × Option ℤ × Option ℤ :=
    match gaps with
    | [] => (none, none, none)
    | g :: gs =>
      (some (round1 (((g :: gs).sum : ℚ) / (((g :: gs).length : ℚ)))),
       some (gs.foldl max g), some (gs.foldl min g))
  let first_avg_views := avg_metric (first_half videos) (·.view_count)
  let second_avg_views := avg_metric (second_half videos) (·.view_count)
  let first_avg_likes := avg_metric (first_half videos) (·.like_count)
  let second_avg_likes := avg_metric (second_half videos) (·.like_count)
  let view_change : ℚ :=
    if 0 < first_avg_views then
      ((second_avg_views - first_avg_views) / first_avg_views) * 100
    else 0
  let like_change : ℚ :=
    if 0 < first_avg_likes then
      ((second_avg_likes - first_avg_likes) / first_avg_likes) * 100
    else 0
  let perf : PerformanceTrend :=
    ⟨⌊first_avg_views⌋, ⌊second_avg_views⌋, round1 view_change,
     ⌊first_avg_likes⌋, ⌊second_avg_likes⌋, round1 like_change⟩
  let direction : String × String :=
    if 20 < view_change then ("growth", "成長中")
    else if view_change < -20 then ("declining", "低下傾向")
    else ("stable", "安定")
  let first_eng : List ℚ := eng_rates (first_half videos)
  let second_eng : List ℚ := eng_rates (second_half videos)
  let engagement : Option EngagementTrend :=
    if first_eng ≠ [] ∧ second_eng ≠ [] then
      some ⟨round2 (first_eng.sum / (first_eng.length : ℚ)),
            round2 (second_eng.sum / (second_eng.length : ℚ))⟩
    else none
  let day_stats : List DayStat :=
    if day_performance ds = [] then []
    else sSort (fun a b => b.avg_views ≤ a.avg_views)
      ((day_performance ds).map (fun b =>
        ⟨dayNameJa b.1,
         (if b.2.1 = [] then 0
          else ⌊((b.2.1.map (fun v => (v : ℚ))).sum) / (b.2.1.length : ℚ)⌋),
         b.2.2⟩))
  let viral : List ViralVideo := (viral_list ds).map (fun p =>
    ⟨p.1.title.take 40, p.1.view_count, p.1.upload_date⟩)
  { posting_frequency := posting_frequency
    period_days := period_days
    total_posts_analyzed := ds.length
    avg_gap_days := gapFields.1
    max_gap_days := gapFields.2.1
    min_gap_days := gapFields.2.2
    performance_trend := perf
    trend_direction := direction.1
    trend_label := direction.2
    engagement_trend := engagement
    day_of_week_performance := day_stats
    viral_outliers := viral
    viral_count := viral.length
    average_views := ⌊popMeanViews ds⌋ }

/-- `analyze_trends(videos)`.  Returns `none` ("insufficient data") when
the input has fewer than 3 posts (`if not videos or len(videos) < 3`) or
fewer than 3 posts carry a parseable date; otherwise assembles the full
trend report. -/
def analyze_trends (videos : List Video) : Option TrendReport :=
  if videos.length < 3 then none
  else if (dated_sorted videos).length < 3 then none
  else some (analyze_core videos)

/-! ### Formatter (`format_trend_analysis`, src/utils/trend_analyzer.py)

String helpers model the Python format specifiers used by the f-strings:
`{x:,}` (thousands separators), `{q:+.1f}`, `{q:.2f}`, and `str()` of a
float that is known to be a `round(_, 1)` / `round(_, 2)` result. -/

/-- Insert `,` every three digits; the input is the reversed digit list. -/
def commaGroupRev : List Char → List Char
  | a :: b :: c :: d :: rest => a :: b :: c :: ',' :: commaGroupRev (d :: rest)
  | l => l

/-- Python `f"{n:,}"` for a natural number. -/
def commaNat (n : Nat) : String :=
  ⟨(commaGroupRev (toString n).data.reverse).reverse⟩

/-- Python `f"{n:,}"` for an integer. -/
def commaInt (n : ℤ) : String :=
  (if n < 0 then "-" else "") ++ commaNat n.natAbs

/-- Python `f"{q:+.1f}"` for a value with denominator dividing 10
(all uses format `round(_, 1)` results). -/
def fmtSigned1 (q : ℚ) : String :=
  let k := ⌊q * 10⌋
  (if k < 0 then "-" else "+") ++ toString (k.natAbs / 10) ++ "." ++
    toString (k.natAbs % 10)

/-- Python `f"{q:.2f}"` for a value with denominator dividing 100
(all uses format `round(_, 2)` results). -/
def fmtFixed2 (q : ℚ) : String :=
  let k := ⌊q * 100⌋
  (if k < 0 then "-" else "") ++ toString (k.natAbs / 100) ++ "." ++
    (if k.natAbs % 100 < 10 then "0" else "") ++ toString (k.natAbs % 100)

/-- Python `str()` of a float that is a `round(_, 1)` result: always one
decimal digit (`str(3.0) = "3.0"`). -/
def pyFloat1Str (q : ℚ) : String :=
  let k := ⌊q * 10⌋
  (if k < 0 then "-" else "") ++ toString (k.natAbs / 10) ++ "." ++
    toString (k.natAbs % 10)

/-- Python `str()` of a float that is a `round(_, 2)` result: shortest
representation, at least one decimal digit. -/
def pyFloat2Str (q : ℚ) : String :=
  let k := ⌊q * 100⌋
  if k % 10 = 0 then pyFloat1Str q
  else
    (if k < 0 then "-" else "") ++ toString (k.natAbs / 100) ++ "." ++
      (if k.natAbs % 100 < 10 then "0" else "") ++ toString (k.natAbs % 100)

/-- First line: `分析期間: {period_days}日間 / 分析投稿数: {n}本`. -/
def periodLine (a : TrendReport) : String :=
  "分析期間: " ++ toString a.period_days ++ "日間 / 分析投稿数: " ++
    toString a.total_posts_analyzed ++ "本"

/-- The posting-frequency section: emitted only when
`analysis.get("posting_frequency")` is truthy — i.e. present AND non-zero
(a float `0.0` is falsy in Python).  The gap values are rendered through
`analysis.get(..., 0)`: the `int` default `0` prints as `"0"`. -/
def freqSection (a : TrendReport) : List String :=
  match a.posting_frequency with
  | none => []
  | some f =>
    if f = 0 then []
    else
      ["投稿頻度: 週" ++ pyFloat1Str f ++ "本（平均投稿間隔: " ++
        (match a.avg_gap_days with
         | some g => pyFloat1Str g
         | none => "0") ++ "日 / 最大空白: " ++
        (match a.max_gap_days with
         | some m => toString m
         | none => "0") ++ "日）"]

/-- The performance-trend section (the `performance_trend` dict is always
non-empty when `analyze_trends` succeeds, so the `if trend:` guard always
passes for reports produced by the analyzer). -/
def perfSection (a : TrendReport) : List String :=
  ["パフォーマンス推移: 【" ++ a.trend_label ++ "】",
   "  前半平均再生数: " ++ commaInt a.performance_trend.first_half_avg_views ++
     " → 後半平均再生数: " ++ commaInt a.performance_trend.second_half_avg_views ++
     "（" ++ fmtSigned1 a.performance_trend.view_change_pct ++ "%）",
   "  前半平均いいね: " ++ commaInt a.performance_trend.first_half_avg_likes ++
     " → 後半平均いいね: " ++ commaInt a.performance_trend.second_half_avg_likes ++
     "（" ++ fmtSigned1 a.performance_trend.like_change_pct ++ "%）"]

/-- The engagement line of the formatter, for a present sub-result. -/
def engLine (e : EngagementTrend) : String :=
  "エンゲージメント率推移: 前半 " ++ fmtFixed2 e.first_half_avg_rate ++
    "% → 後半 " ++ fmtFixed2 e.second_half_avg_rate ++ "%"

/-- The engagement section: omitted when the sub-result is absent
(`eng = analysis.get("engagement_trend", {}); if eng:`). -/
def engSection (a : TrendReport) : List String :=
  match a.engagement_trend with
  | none => []
  | some e => [engLine e]

/-- The best-day section (`if day_stats:` — list truthiness). -/
def daySection (a : TrendReport) : List String :=
  match a.day_of_week_performance with
  | [] => []
  | best :: _ =>
    ["最もパフォーマンスが高い曜日: " ++ best.day ++ "（平均" ++
      commaInt best.avg_views ++ "再生 / " ++ toString best.post_count ++ "投稿）"]

/-- Detail line for one listed viral outlier. -/
def viralDetailLine (v : ViralVideo) : String :=
  "  - " ++ v.title ++ " (" ++ commaNat v.views ++ "再生, " ++ v.date ++ ")"

/-- The viral section: the population average line is unconditional; when
the outlier list is non-empty, a count line plus detail lines for
`viral[:3]` — the FIRST three entries of the stored list. -/
def viralSection (a : TrendReport) : List String :=
  ("全体平均再生数: " ++ commaInt a.average_views) ::
    (match a.viral_outliers with
     | [] => []
     | vs => ("バイラル投稿（平均の2σ超え）: " ++ toString vs.length ++ "本") ::
         (vs.take 3).map viralDetailLine)

/-- The `parts` list assembled by `format_trend_analysis` for a present
analysis dict, in source order. -/
def formatParts (a : TrendReport) : List String :=
  periodLine a :: (freqSection a ++ perfSection a ++ engSection a ++
    daySection a ++ viralSection a)

/-- `format_trend_analysis(analysis)`: empty string for an absent
analysis, otherwise the parts joined with newlines. -/
def format_trend_analysis (analysis : Option TrendReport) : String :=
  match analysis with
  | none => ""
  | some a => String.intercalate "\n" (formatParts a)

/-! ### Comparative aggregator (src/utils/competitor_analyzer.py) -/

/-- A Python value that is either a number or a display string (the
follower count arrives as either an int or the string `"不明"`). -/
inductive FVal where
  | num (n : ℤ)
  | txt (s : String)
deriving DecidableEq, Repr, Inhabited

/-- `str()` of such a value. -/
def FVal.render : FVal → String
  | .num n => toString n
  | .txt s => s

/-- Result dict of `fetch_tiktok_profile`. -/
structure TikTokProfile where
  username : String := ""
  display_name : String := ""
  followers : FVal := .txt "不明"
deriving DecidableEq, Repr, Inhabited

/-- `c = 'a'` etc.: the whitespace stripped by Python `str.strip()`. -/
def isPyWs (c : Char) : Bool :=
  c = ' ' || c = '\t' || c = '\n' || c = '\r' || c = '\x0b' || c = '\x0c'

/-- Python `str.strip()`. -/
def pyStrip (s : String) : String :=
  ⟨((s.data.dropWhile isPyWs).reverse.dropWhile isPyWs).reverse⟩

/-- `re.search(r"tiktok\.com/@([^/?]+)", s)`: scan for the leftmost
position where the pattern matches; the capture group requires at least
one character other than `/` and `?` after `tiktok.com/@`. -/
def findTikTokCapture : List Char → Option String
  | [] => none
  | c :: rest =>
    if List.isPrefixOf "tiktok.com/@".data (c :: rest) then
      let cap := ((c :: rest).drop 12).takeWhile (fun ch => ch ≠ '/' ∧ ch ≠ '?')
      if cap ≠ [] then some ⟨cap⟩ else findTikTokCapture rest
    else findTikTokCapture rest

/-- `extract_username(url_or_username)` from src/utils/tiktok_fetcher.py:
the regex capture when the URL form matches, otherwise
`url_or_username.lstrip("@").strip()`. -/
def extract_username (s : String) : String :=
  match findTikTokCapture s.data with
  | some cap => cap
  | none => pyStrip ⟨s.data.dropWhile (· = '@')⟩

/-- The per-competitor stats dict built by `fetch_competitor_data` on a
successful video fetch. -/
structure CompStats where
  username : String
  followers : FVal
  total_posts : Nat
  avg_views : ℤ
  avg_likes : ℤ
  avg_comments : ℤ
  max_views : Nat
  engagement_rate : ℚ
  trend : String
  posting_frequency : Option ℚ
deriving DecidableEq, Repr

/-- One entry of the list returned by `fetch_competitor_data`: either the
error dict `{"username": ..., "error": "メタデータ取得失敗"}` or a full
stats dict. -/
inductive Competitor where
  | failed (username : String)
  | ok (stats : CompStats)
deriving DecidableEq, Repr

/-- The username field of either kind of entry. -/
def Competitor.username : Competitor → String
  | .failed u => u
  | .ok s => s.username

/-- `"error" not in c`. -/
def Competitor.isOk : Competitor → Bool
  | .failed _ => false
  | .ok _ => true

/-- `fetch_competitor_data(usernames)`, with the two I/O collaborators
(`fetch_tiktok_profile`, `fetch_tiktok_videos`) passed in as functions.
An entry whose cleaned username is empty is skipped; a failed video fetch
yields an error entry; otherwise basic stats plus the trend label and
posting frequency from `analyze_trends` are assembled. -/
def fetch_competitor_data (fetchProfile : String → Option TikTokProfile)
    (fetchVideos : String → Option (List Video)) (usernames : List String) :
    List Competitor :=
  usernames.filterMap (fun raw =>
    let username := extract_username (pyStrip raw)
    if username = "" then none
    else
      let profile := fetchProfile username
      match fetchVideos username with
      | none => some (.failed username)
      | some videos =>
        let view_counts : List Nat := videos.map (·.view_count)
        let like_counts : List Nat := videos.map (·.like_count)
        let comment_counts : List Nat := videos.map (·.comment_count)
        let avg_views : ℚ :=
          if view_counts = [] then 0
          else ((view_counts.map (fun n => (n : ℚ))).sum) / (view_counts.length : ℚ)
        let avg_likes : ℚ :=
          if like_counts = [] then 0
          else ((like_counts.map (fun n => (n : ℚ))).sum) / (like_counts.length : ℚ)
        let avg_comments : ℚ :=
          if comment_counts = [] then 0
          else ((comment_counts.map (fun n => (n : ℚ))).sum) / (comment_counts.length : ℚ)
        let max_views : Nat := match view_counts with
          | [] => 0
          | x :: xs => xs.foldl max x
        let total_views := view_counts.sum
        let total_likes := like_counts.sum
        let engagement_rate : ℚ :=
          if 0 < total_views then ((total_likes : ℚ) / (total_views : ℚ)) * 100 else 0
        let trendD := analyze_trends videos
        some (.ok
          { username := username
            followers := match profile with
              | some p => p.followers
              | none => .txt "不明"
            total_posts := videos.length
            avg_views := ⌊avg_views⌋
            avg_likes := ⌊avg_likes⌋
            avg_comments := ⌊avg_comments⌋
            max_views := max_views
            engagement_rate := round2 engagement_rate
            trend := match trendD with
              | some r => r.trend_label
              | none => "不明"
            posting_frequency := match trendD with
              | some r => r.posting_frequency
              | none => none }))

/-- The main account's stats dict.  `build_main_account_stats` returns the
empty dict `{}` when there are no videos; `none` models that, and the
formatter renders the corresponding `.get` defaults. -/
structure MainStats where
  followers : FVal := .txt "不明"
  total_posts : Nat := 0
  avg_views : ℤ := 0
  avg_likes : ℤ := 0
  max_views : Nat := 0
  engagement_rate : ℚ := 0
  trend : String := "不明"
  posting_frequency : Option ℚ := none
deriving DecidableEq, Repr, Inhabited

/-- `build_main_account_stats(videos, profile)`. -/
def build_main_account_stats (videos : List Video)
    (profile : Option TikTokProfile) : Option MainStats :=
  if videos = [] then none
  else
    let view_counts : List Nat := videos.map (·.view_count)
    let like_counts : List Nat := videos.map (·.like_count)
    let avg_views : ℚ :=
      if view_counts = [] then 0
      else ((view_counts.map (fun n => (n : ℚ))).sum) / (view_counts.length : ℚ)
    let avg_likes : ℚ :=
      if like_counts = [] then 0
      else ((like_counts.map (fun n => (n : ℚ))).sum) / (like_counts.length : ℚ)
    let max_views : Nat := match view_counts with
      | [] => 0
      | x :: xs => xs.foldl max x
    let total_views := view_counts.sum
    let total_likes := like_counts.sum
    let engagement_rate : ℚ :=
      if 0 < total_views then ((total_likes : ℚ) / (total_views : ℚ)) * 100 else 0
    let trendD := analyze_trends videos
    some
      { followers := match profile with
          | some p => p.followers
          | none => .txt "不明"
        total_posts := videos.length
        avg_views := ⌊avg_views⌋
        avg_likes := ⌊avg_likes⌋
        max_views := max_views
        engagement_rate := round2 engagement_rate
        trend := match trendD with
          | some r => r.trend_label
          | none => "不明"
        posting_frequency := match trendD with
          | some r => r.posting_frequency
          | none => none }

/-- The valid competitors (`[c for c in competitors if "error" not in c]`). -/
def validCompetitors (competitors : List Competitor) : List CompStats :=
  competitors.filterMap (fun c => match c with
    | .ok s => some s
    | .failed _ => none)

/-- The failed competitors (`[c for c in competitors if "error" in c]`). -/
def failedCompetitors (competitors : List Competitor) : List Competitor :=
  competitors.filter (fun c => !c.isOk)

/-- The table header row after the per-competitor column loop:
`"| 指標 | **分析対象** |"` plus one `" @username |"` per valid competitor. -/
def headerRow (valid : List CompStats) : String :=
  "| 指標 | **分析対象** |" ++ String.join (valid.map (fun c => " @" ++ c.username ++ " |"))

/-- One `add_row` call: label, the main account's cell, and one cell per
valid competitor (`str()` of the competitor's value, rendered by `f`). -/
def addRow (valid : List CompStats) (label mainVal : String)
    (f : CompStats → String) : String :=
  "| " ++ label ++ " | " ++ mainVal ++ " |" ++
    String.join (valid.map (fun c => " " ++ f c ++ " |"))

/-- The posting-frequency cell (`'週' + str(cf) + '本' if cf else '—'`). -/
def freqCell (freq : Option ℚ) : String :=
  match freq with
  | some f => if f = 0 then "—" else "週" ++ pyFloat1Str f ++ "本"
  | none => "—"

/-- The `parts` list of `format_competitor_comparison` for a non-empty
valid-competitor list.  The source also rewrites the competitor dicts
into display strings after all rows have been appended; that block cannot
affect the returned string and is omitted from this functional model. -/
def format_competitor_parts (main : Option MainStats)
    (competitors : List Competitor) : List String :=
  let valid := validCompetitors competitors
  let header := headerRow valid
  let headerSep := "|------|------|" ++ String.join (valid.map (fun _ => "------|"))
  let rows : List String :=
    [addRow valid "フォロワー"
      (match main with
       | some m => m.followers.render
       | none => "—") (fun c => c.followers.render),
     addRow valid "投稿数"
      (match main with
       | some m => toString m.total_posts
       | none => "—") (fun c => toString c.total_posts),
     addRow valid "平均再生数"
      (commaInt (match main with
       | some m => m.avg_views
       | none => 0)) (fun c => toString c.avg_views),
     addRow valid "平均いいね"
      (commaInt (match main with
       | some m => m.avg_likes
       | none => 0)) (fun c => toString c.avg_likes),
     addRow valid "最高再生数"
      (commaNat (match main with
       | some m => m.max_views
       | none => 0)) (fun c => toString c.max_views),
     addRow valid "エンゲージメント率"
      ((match main with
        | some m => pyFloat2Str m.engagement_rate
        | none => "0") ++ "%") (fun c => pyFloat2Str c.engagement_rate),
     addRow valid "トレンド"
      (match main with
       | some m => m.trend
       | none => "—") (fun c => c.trend)]
  let freqRow := "| 投稿頻度 | " ++
    (match main with
     | some m => freqCell m.posting_frequency
     | none => "—") ++ " |" ++
    String.join (valid.map (fun c => " " ++ freqCell c.posting_frequency ++ " |"))
  let failed := failedCompetitors competitors
  ("### 比較対象アカウント一覧\n" :: header :: headerSep :: rows) ++
    [freqRow, ""] ++
    (if failed = [] then []
     else ["※ 取得失敗: " ++ String.intercalate ", " (failed.map (·.username))])

/-- `format_competitor_comparison(main_data, competitors)`: empty string
when there are no competitors or none succeeded, otherwise the newline
join of the parts. -/
def format_competitor_comparison (main : Option MainStats)
    (competitors : List Competitor) : String :=
  if competitors = [] then ""
  else if validCompetitors competitors = [] then ""
  else String.intercalate "\n" (format_competitor_parts main competitors)

def tv (d : String) (vc : Nat) (lc : Nat := 0) : Video :=
  { upload_date := d, view_count := vc, like_count := lc }

/-! ### Concrete populations used by the claim theorems -/

/-- A population of five pairwise-distinct posts (ranked by views). -/
def ex5 : List Video :=
  [{ id := "a", view_count := 500 }, { id := "b", view_count := 400 },
   { id := "c", view_count := 300 }, { id := "d", view_count := 200 },
   { id := "e", view_count := 100 }]

/-- A population of six pairwise-distinct posts. -/
def ex6 : List Video :=
  [{ id := "a", view_count := 600 }, { id := "b", view_count := 500 },
   { id := "c", view_count := 400 }, { id := "d", view_count := 300 },
   { id := "e", view_count := 200 }, { id := "f", view_count := 100 }]

/-- Four dated posts whose first/second half mean views are 100 and 130. -/
def exGrowth : List Video :=
  [tv "2024-01-04" 130, tv "2024-01-03" 130, tv "2024-01-02" 100,
   tv "2024-01-01" 100]

/-- Four dated posts with half means 100 and 110 (stable). -/
def exStable : List Video :=
  [tv "2024-01-04" 110, tv "2024-01-03" 110, tv "2024-01-02" 100,
   tv "2024-01-01" 100]

/-- Four dated posts with half means 100 and 70 (declining). -/
def exDeclining : List Video :=
  [tv "2024-01-04" 70, tv "2024-01-03" 70, tv "2024-01-02" 100,
   tv "2024-01-01" 100]

/-- The specification's boundary population `[10,10,10,10,100]`:
mean 28, variance 1296, so the threshold `28 + 2·36` is exactly 100. -/
def exViral5 : List Video :=
  [tv "2024-01-01" 10, tv "2024-01-02" 10, tv "2024-01-03" 10,
   tv "2024-01-04" 10, tv "2024-01-05" 100]

/-- Three dated posts with view counts 3, 1, 1 in date order: the exact
view percent-change is `-200/3`, which `round(_, 1)` turns into `-66.7`. -/
def exC6 : List Video :=
  [tv "2024-01-01" 3, tv "2024-01-02" 1, tv "2024-01-03" 1]

/-- Three dated posts spanning 421 days: the posting frequency
`3/(421/7) = 21/421 ≈ 0.0499` rounds to `0.0`. -/
def ex421 : List Video :=
  [tv "2020-01-01" 10, tv "2020-01-02" 20, tv "2021-02-25" 30]

/-- Three dated posts whose (singleton) first date-half has zero views,
so the first-half engagement-rate list is empty. -/
def exZeroEng : List Video :=
  [tv "2024-01-01" 0 0, tv "2024-01-02" 5 1, tv "2024-01-03" 5 1]

/-- Twenty-one dated posts: seventeen with 0 views and four outliers with
1000, 1001, 1002 and 1003 views; the highest-view outlier (1003) has the
latest date, so it is fourth in the date-ordered outlier list. -/
def ex21 : List Video :=
  [tv "2024-01-01" 0, tv "2024-01-02" 0, tv "2024-01-03" 0,
   tv "2024-01-04" 0, tv "2024-01-05" 0, tv "2024-01-06" 0,
   tv "2024-01-07" 0, tv "2024-01-08" 0, tv "2024-01-09" 0,
   tv "2024-01-10" 0, tv "2024-01-11" 0, tv "2024-01-12" 0,
   tv "2024-01-13" 0, tv "2024-01-14" 0, tv "2024-01-15" 0,
   tv "2024-01-16" 0, tv "2024-01-17" 0,
   tv "2024-01-18" 1000, tv "2024-01-19" 1001,
   tv "2024-01-20" 1002, tv "2024-01-21" 1003]

/-- A hand-written report with one viral outlier. -/
def rEx7 : TrendReport := { viral_outliers := [⟨"t", 100, "2024-01-01"⟩], viral_count := 1 }


/-- A profile fetcher that always fails (profile failure does not mark a
competitor as failed in the source). -/
def fpEx : String → Option TikTokProfile := fun _ => none

/-- A video fetcher that fails exactly for the account `"bob"`. -/
def fvEx : String → Option (List Video) := fun u =>
  if u = "bob" then none else some [tv "2024-01-01" 10]

/-! ### Specification-side comparators

These definitions transcribe the specification's full-precision formulas
(not the source's); the claim theorems compare the analyzer's stored
values against them. -/

/-- Plain sum-over-length mean of a metric (no emptiness guard). -/
def meanSpec (l : List DatedVideo) (key : Video → Nat) : ℚ :=
  (l.map (fun p => (key p.1 : ℚ))).sum / (l.length : ℚ)

/-- Mean view count of the first (date-ascending) half. -/
def firstMeanSpec (videos : List Video) : ℚ :=
  meanSpec (first_half videos) (·.view_count)

/-- Mean view count of the second half. -/
def secondMeanSpec (videos : List Video) : ℚ :=
  meanSpec (second_half videos) (·.view_count)

/-- The specification's full-precision view percent-change:
`(second_mean - first_mean) / first_mean * 100`, and 0 when the first-half
mean is 0. -/
def viewChangeSpec (videos : List Video) : ℚ :=
  if firstMeanSpec videos = 0 then 0
  else ((secondMeanSpec videos - firstMeanSpec videos) / firstMeanSpec videos) * 100

/-- The analogous full-precision like percent-change. -/
def likeChangeSpec (videos : List Video) : ℚ :=
  if meanSpec (first_half videos) (·.like_count) = 0 then 0
  else ((meanSpec (second_half videos) (·.like_count) -
    meanSpec (first_half videos) (·.like_count)) /
    meanSpec (first_half videos) (·.like_count)) * 100

/-! ## Sanity checks of the embedding -/

example : parseDate "2024-02-29" = some (rataDie 2024 2 29) := by decide
example : parseDate "2023-02-29" = none := by decide
example : parseDate "2023-2-9" = some (rataDie 2023 2 9) := by decide
example : parseDate "2023-13-01" = none := by decide
example : parseDate "" = none := by decide
example : parseDate "2023-05-01x" = none := by decide
example : weekdayOf (rataDie 2024 10 12) = 5 := by decide
example : pyRound (5/2) = 2 := by decide
example : pyRound (7/2) = 4 := by decide
example : extract_username "https://www.tiktok.com/@someuser?lang=en" = "someuser" := by decide
example : extract_username "@someuser" = "someuser" := by decide

example : format_trend_analysis (analyze_trends [tv "2024-01-04" 130,
    tv "2024-01-03" 130, tv "2024-01-02" 1100 50, tv "2024-01-01" 100]) =
    "分析期間: 3日間 / 分析投稿数: 4本\n投稿頻度: 週9.3本（平均投稿間隔: 1.0日 / 最大空白: 1日）\nパフォーマンス推移: 【低下傾向】\n  前半平均再生数: 600 → 後半平均再生数: 130（-78.3%）\n  前半平均いいね: 25 → 後半平均いいね: 0（-100.0%）\nエンゲージメント率推移: 前半 2.27% → 後半 0.00%\n最もパフォーマンスが高い曜日: 火曜（平均1,100再生 / 1投稿）\n全体平均再生数: 365" := by decide

example : ((analyze_trends ex421).getD default).posting_frequency = some 0 := by decide

/-! ## Helper lemmas -/

theorem length_sInsert {α : Type} (le : α → α → Bool) (x : α) (l : List α) :
    (sInsert le x l).length = l.length + 1 := by
  induction l with
  | nil => rfl
  | cons y t ih =>
    simp only [sInsert]
    split
    · simp
    · simp [ih]

theorem length_sSort {α : Type} (le : α → α → Bool) (l : List α) :
    (sSort le l).length = l.length := by
  induction l with
  | nil => rfl
  | cons x t ih => simp [sSort, length_sInsert, ih]

theorem mem_sInsert {α : Type} (le : α → α → Bool) (x a : α) (l : List α) :
    a ∈ sInsert le x l ↔ a = x ∨ a ∈ l := by
  induction l with
  | nil => simp [sInsert]
  | cons y t ih =>
    simp only [sInsert]
    split
    · simp
    · simp [ih]
      tauto

theorem mem_sSort {α : Type} (le : α → α → Bool) (a : α) (l : List α) :
    a ∈ sSort le l ↔ a ∈ l := by
  induction l with
  | nil => simp [sSort]
  | cons x t ih => simp [sSort, mem_sInsert, ih]

theorem pairwise_sInsert {α : Type} (le : α → α → Bool)
    (total : ∀ a b, le a b = true ∨ le b a = true)
    (htrans : ∀ a b c, le a b = true → le b c = true → le a c = true)
    (x : α) (l : List α)
    (h : l.Pairwise (fun a b => le a b = true)) :
    (sInsert le x l).Pairwise (fun a b => le a b = true) := by
  induction l with
  | nil => simp [sInsert]
  | cons y t ih =>
    rcases List.pairwise_cons.mp h with ⟨hy, ht⟩
    by_cases hxy : le x y
    · simp only [sInsert, if_pos hxy]
      refine List.pairwise_cons.mpr ⟨?_, h⟩
      intro b hb
      rcases List.mem_cons.mp hb with rfl | hb
      · exact hxy
      · exact htrans x y b hxy (hy b hb)
    · simp only [sInsert, if_neg hxy]
      refine List.pairwise_cons.mpr ⟨?_, ih ht⟩
      intro b hb
      rcases (mem_sInsert le x b t).mp hb with rfl | hb
      · rcases total b y with hby | hyb
        · exact absurd hby hxy
        · exact hyb
      · exact hy b hb

theorem pairwise_sSort {α : Type} (le : α → α → Bool)
    (total : ∀ a b, le a b = true ∨ le b a = true)
    (htrans : ∀ a b c, le a b = true → le b c = true → le a c = true)
    (l : List α) :
    (sSort le l).Pairwise (fun a b => le a b = true) := by
  induction l with
  | nil => simp [sSort]
  | cons x t ih => exact pairwise_sInsert le total htrans x (sSort le t) ih

theorem dated_sorted_length (videos : List Video) :
    (dated_sorted videos).length = (dated_videos videos).length :=
  length_sSort _ _

theorem dated_videos_length (videos : List Video) :
    (dated_videos videos).length =
      videos.countP (fun v => (parseDate v.upload_date).isSome) := by
  unfold dated_videos
  rw [List.length_filterMap_eq_countP]
  congr 1
  funext v
  by_cases he : v.upload_date = ""
  · simp [he]
    decide
  · simp [he]

theorem analyze_trends_eq_core (videos : List Video)
    (h : (analyze_trends videos).isSome) :
    analyze_trends videos = some (analyze_core videos) := by
  unfold analyze_trends at h ⊢
  split_ifs at h ⊢ <;> simp_all

theorem dated_sorted_congr (v₁ v₂ : List Video)
    (h : dated_videos v₁ = dated_videos v₂) : dated_sorted v₁ = dated_sorted v₂ := by
  unfold dated_sorted
  rw [h]

theorem analyze_core_congr (v₁ v₂ : List Video)
    (h : dated_sorted v₁ = dated_sorted v₂) : analyze_core v₁ = analyze_core v₂ := by
  unfold analyze_core first_half second_half gapsOf
  rw [h]

theorem dated_videos_filter (videos : List Video) :
    dated_videos (videos.filter (fun v => (parseDate v.upload_date).isSome)) =
      dated_videos videos := by
  unfold dated_videos
  induction videos with
  | nil => rfl
  | cons v t ih =>
    by_cases hv : (parseDate v.upload_date).isSome
    · rw [List.filter_cons_of_pos (by simpa using hv)]
      simp only [List.filterMap_cons]
      rw [ih]
    · rw [List.filter_cons_of_neg (by simpa using hv)]
      simp only [List.filterMap_cons]
      have : (if v.upload_date ≠ "" then (parseDate v.upload_date).map (fun rd => (v, rd))
          else none) = none := by
        by_cases he : v.upload_date = ""
        · simp [he]
        · rw [if_pos he, Option.not_isSome_iff_eq_none.mp hv]
          rfl
      rw [this, ih]

/-! ## Claim theorems -/

/-- C3: `analyze_trends` returns the null insufficient-data result exactly
when fewer than 3 posts carry an `upload_date` that `strptime` parses in
`YYYY-MM-DD` form (the embedding is a total function, so no exception can
escape), and posts with a missing or unparseable date are dropped before
every statistic is computed: the analysis of a population equals the
analysis of its parseable-date subset, and with 3 or more dated posts a
non-null report is produced. -/
theorem c3_insufficient_data (videos : List Video) :
    (analyze_trends videos = none ↔
      videos.countP (fun v => (parseDate v.upload_date).isSome) < 3) ∧
    ((analyze_trends videos).isSome ↔
      3 ≤ videos.countP (fun v => (parseDate v.upload_date).isSome)) ∧
    analyze_trends videos =
      analyze_trends (videos.filter (fun v => (parseDate v.upload_date).isSome)) := by
  have hcount : (dated_sorted videos).length =
      videos.countP (fun v => (parseDate v.upload_date).isSome) := by
    rw [dated_sorted_length, dated_videos_length]
  have hmain : analyze_trends videos = none ↔
      videos.countP (fun v => (parseDate v.upload_date).isSome) < 3 := by
    unfold analyze_trends
    split_ifs with h1 h2
    · have hle := List.countP_le_length
        (p := fun v => (parseDate v.upload_date).isSome) (l := videos)
      simp only [eq_self_iff_true, true_iff]
      omega
    · rw [hcount] at h2
      simp only [eq_self_iff_true, true_iff]
      exact h2
    · rw [hcount] at h2
      simp only [reduceCtorEq, false_iff]
      omega
  refine ⟨hmain, ?_, ?_⟩
  · rw [← Option.not_isSome_iff_eq_none] at hmain
    constructor
    · intro h
      by_contra hc
      exact (hmain.mpr (by omega)) h
    · intro h
      by_contra hc
      have := hmain.mp hc
      omega
  · have hdv := dated_videos_filter videos
    have hds := dated_sorted_congr _ _ hdv
    have hflen : (videos.filter (fun v => (parseDate v.upload_date).isSome)).length =
        videos.countP (fun v => (parseDate v.upload_date).isSome) := by
      rw [List.countP_eq_length_filter]
    unfold analyze_trends
    rw [hds, analyze_core_congr _ _ hds]
    have hle := List.countP_le_length
      (p := fun v => (parseDate v.upload_date).isSome) (l := videos)
    have hdlen := hcount
    split_ifs with h1 h2 h3 h4 <;> try rfl
    all_goals (exfalso; rw [hflen] at *; omega)

theorem getD_eq_get (l : List Video) (i : Nat) (d : Video) (h : i < l.length) :
    l.getD i d = l.get ⟨i, h⟩ := by
  simp [List.getD_eq_getElem?_getD, List.getElem?_eq_getElem h]

/-- C2: size and content of the sampler's selection, by population size:
`n = 0` gives the empty selection; `n ≤ 2` the whole population in order;
`3 ≤ n ≤ 4` exactly ranks 1, 2 and last; `n ≥ 5` the fixed five-slot
selection `[0, 1, n/2 - 1, n/2, n-1]` (0-based) truncated to the first
`target_count` elements, hence `min(5, target_count)` elements. -/
theorem c2_sampler_sizes (vs : List Video) (count : Nat) :
    ((sample_videos_for_analysis vs count).length =
      (if vs.length = 0 then 0 else if vs.length ≤ 2 then vs.length
       else if vs.length ≤ 4 then 3 else min 5 count)) ∧
    (∀ (_ : vs.length ≤ 2), sample_videos_for_analysis vs count = vs) ∧
    (∀ (h3 : 3 ≤ vs.length) (h4 : vs.length ≤ 4),
      sample_videos_for_analysis vs count =
        [vs.get ⟨0, by omega⟩, vs.get ⟨1, by omega⟩,
         vs.get ⟨vs.length - 1, by omega⟩]) ∧
    (∀ (h5 : 5 ≤ vs.length),
      sample_videos_for_analysis vs count =
        ([vs.get ⟨0, by omega⟩, vs.get ⟨1, by omega⟩,
          vs.get ⟨vs.length / 2 - 1, by omega⟩, vs.get ⟨vs.length / 2, by omega⟩,
          vs.get ⟨vs.length - 1, by omega⟩]).take count) := by
  refine ⟨?_, ?_, ?_, ?_⟩
  · unfold sample_videos_for_analysis
    dsimp only
    split_ifs with h1 h2 h3
    · rfl
    · rfl
    · rfl
    · simp only [List.length_take, List.length_cons, List.length_nil]
      omega
  · intro h2
    unfold sample_videos_for_analysis
    dsimp only
    split_ifs with h1
    · exact (List.length_eq_zero.mp h1).symm
    · rfl
  · intro h3 h4
    unfold sample_videos_for_analysis
    dsimp only
    split_ifs with h1 h2' <;> try omega
    rw [getD_eq_get vs 0 dummyVideo (by omega), getD_eq_get vs 1 dummyVideo (by omega),
        getD_eq_get vs (vs.length - 1) dummyVideo (by omega)]
  · intro h5
    unfold sample_videos_for_analysis
    dsimp only
    split_ifs with h1 h2' h4' <;> try omega
    rw [getD_eq_get vs 0 dummyVideo (by omega), getD_eq_get vs 1 dummyVideo (by omega),
        getD_eq_get vs (vs.length / 2 - 1) dummyVideo (by omega),
        getD_eq_get vs (vs.length / 2) dummyVideo (by omega),
        getD_eq_get vs (vs.length - 1) dummyVideo (by omega)]

/-- C2 witness: the branches of `c2_sampler_sizes` instantiated at the
concrete five-post population `ex5` with the default target count. -/
theorem c2_sampler_sizes_witness :
    (sample_videos_for_analysis ex5 5).length = min 5 5 ∧
    sample_videos_for_analysis ex5 5 =
      ([ex5.get ⟨0, by decide⟩, ex5.get ⟨1, by decide⟩, ex5.get ⟨1, by decide⟩,
        ex5.get ⟨2, by decide⟩, ex5.get ⟨4, by decide⟩]).take 5 := by
  constructor
  · exact ((c2_sampler_sizes ex5 5).1).trans (by decide)
  · exact ((c2_sampler_sizes ex5 5).2.2.2 (by decide)).trans (by decide)

theorem nodup_three {α : Type} (a b c : α) (h1 : a ≠ b) (h2 : a ≠ c)
    (h3 : b ≠ c) : ([a, b, c]).Nodup := by
  simp only [List.nodup_cons, List.mem_cons, List.mem_singleton, List.not_mem_nil,
    List.nodup_nil]
  tauto

theorem nodup_five {α : Type} (a b c d e : α) (h1 : a ≠ b) (h2 : a ≠ c)
    (h3 : a ≠ d) (h4 : a ≠ e) (h5 : b ≠ c) (h6 : b ≠ d) (h7 : b ≠ e)
    (h8 : c ≠ d) (h9 : c ≠ e) (h10 : d ≠ e) : ([a, b, c, d, e]).Nodup := by
  simp only [List.nodup_cons, List.mem_cons, List.mem_singleton, List.not_mem_nil,
    List.nodup_nil]
  tauto

theorem getD_mem (l : List Video) (i : Nat) (d : Video) (h : i < l.length) :
    l.getD i d ∈ l := by
  rw [getD_eq_get l i d h]
  exact List.get_mem l i h

theorem sample_small (vs : List Video) (count : Nat) (h : vs.length ≤ 2) :
    sample_videos_for_analysis vs count = vs := by
  unfold sample_videos_for_analysis
  dsimp only
  split_ifs with h1
  · exact (List.length_eq_zero.mp h1).symm
  · rfl

theorem sample_mid (vs : List Video) (count : Nat) (h3 : 3 ≤ vs.length)
    (h4 : vs.length ≤ 4) :
    sample_videos_for_analysis vs count =
      [vs.getD 0 dummyVideo, vs.getD 1 dummyVideo,
       vs.getD (vs.length - 1) dummyVideo] := by
  unfold sample_videos_for_analysis
  dsimp only
  split_ifs with h1 h2 <;> first | rfl | omega

theorem sample_big (vs : List Video) (count : Nat) (h5 : 5 ≤ vs.length) :
    sample_videos_for_analysis vs count =
      ([vs.getD 0 dummyVideo, vs.getD 1 dummyVideo,
        vs.getD (vs.length / 2 - 1) dummyVideo, vs.getD (vs.length / 2) dummyVideo,
        vs.getD (vs.length - 1) dummyVideo]).take count := by
  unfold sample_videos_for_analysis
  dsimp only
  split_ifs with h1 h2 h4 <;> first | rfl | omega

/-- C1 (counterexample): on a population of exactly five pairwise-distinct
posts, `mid = 5 // 2 = 2`, so `videos[mid - 1]` is `videos[1]` again: the
default selection contains the rank-2 post twice, refuting
"no post appears twice in the selection". -/
theorem c1_counterexample : ex5.Nodup ∧ ¬ (sample_videos_for_analysis ex5 5).Nodup := by
  decide

/-- C1 (amended): the selection is always a subset of the input
population; on a duplicate-free population it is duplicate-free for every
size except exactly `n = 5` (where the rank-2 post is selected twice as
soon as at least 3 elements are taken); and for `n ≥ 5` with the default
`target_count = 5` the selection includes the rank-1 and the last-ranked
element. -/
theorem c1_sampler_subset (vs : List Video) (count : Nat) :
    (∀ x ∈ sample_videos_for_analysis vs count, x ∈ vs) ∧
    (vs.Nodup → vs.length ≠ 5 → (sample_videos_for_analysis vs count).Nodup) ∧
    (∀ (h5 : 5 ≤ vs.length),
      vs.get ⟨0, by omega⟩ ∈ sample_videos_for_analysis vs 5 ∧
      vs.get ⟨vs.length - 1, by omega⟩ ∈ sample_videos_for_analysis vs 5) := by
  refine ⟨?_, ?_, ?_⟩
  · intro x hx
    by_cases h2 : vs.length ≤ 2
    · rwa [sample_small vs count h2] at hx
    by_cases h4 : vs.length ≤ 4
    · rw [sample_mid vs count (by omega) h4] at hx
      rcases List.mem_cons.mp hx with rfl | hx
      · exact getD_mem _ _ _ (by omega)
      rcases List.mem_cons.mp hx with rfl | hx
      · exact getD_mem _ _ _ (by omega)
      rcases List.mem_cons.mp hx with rfl | hx
      · exact getD_mem _ _ _ (by omega)
      · simp at hx
    · rw [sample_big vs count (by omega)] at hx
      have hx' := List.mem_of_mem_take hx
      rcases List.mem_cons.mp hx' with rfl | hx'
      · exact getD_mem _ _ _ (by omega)
      rcases List.mem_cons.mp hx' with rfl | hx'
      · exact getD_mem _ _ _ (by omega)
      rcases List.mem_cons.mp hx' with rfl | hx'
      · exact getD_mem _ _ _ (by omega)
      rcases List.mem_cons.mp hx' with rfl | hx'
      · exact getD_mem _ _ _ (by omega)
      rcases List.mem_cons.mp hx' with rfl | hx'
      · exact getD_mem _ _ _ (by omega)
      · simp at hx'
  · intro hnd hne
    by_cases h2 : vs.length ≤ 2
    · rwa [sample_small vs count h2]
    have key : ∀ (i j : Nat) (hi : i < vs.length) (hj : j < vs.length), i ≠ j →
        vs.get ⟨i, hi⟩ ≠ vs.get ⟨j, hj⟩ := by
      intro i j hi hj hij hc
      rw [List.get_eq_getElem, List.get_eq_getElem, hnd.getElem_inj_iff] at hc
      exact hij hc
    by_cases h4 : vs.length ≤ 4
    · rw [sample_mid vs count (by omega) h4]
      rw [getD_eq_get vs 0 dummyVideo (by omega), getD_eq_get vs 1 dummyVideo (by omega),
          getD_eq_get vs (vs.length - 1) dummyVideo (by omega)]
      exact nodup_three _ _ _ (key _ _ _ _ (by omega)) (key _ _ _ _ (by omega))
        (key _ _ _ _ (by omega))
    · have h6 : 6 ≤ vs.length := by omega
      rw [sample_big vs count (by omega)]
      refine List.Nodup.sublist (List.take_sublist count _) ?_
      rw [getD_eq_get vs 0 dummyVideo (by omega), getD_eq_get vs 1 dummyVideo (by omega),
          getD_eq_get vs (vs.length / 2 - 1) dummyVideo (by omega),
          getD_eq_get vs (vs.length / 2) dummyVideo (by omega),
          getD_eq_get vs (vs.length - 1) dummyVideo (by omega)]
      exact nodup_five _ _ _ _ _ (key _ _ _ _ (by omega)) (key _ _ _ _ (by omega))
        (key _ _ _ _ (by omega)) (key _ _ _ _ (by omega)) (key _ _ _ _ (by omega))
        (key _ _ _ _ (by omega)) (key _ _ _ _ (by omega)) (key _ _ _ _ (by omega))
        (key _ _ _ _ (by omega)) (key _ _ _ _ (by omega))
  · intro h5
    rw [sample_big vs 5 h5]
    have htake : ∀ l : List Video, l.length = 5 → l.take 5 = l := by
      intro l hl
      exact List.take_of_length_le (by omega)
    rw [htake _ (by simp)]
    constructor
    · rw [getD_eq_get vs 0 dummyVideo (by omega)]
      simp
    · rw [getD_eq_get vs (vs.length - 1) dummyVideo (by omega)]
      simp


/-- C1 witness: the amended sampler theorem instantiated on the concrete
six-post population `ex6`. -/
theorem c1_sampler_subset_witness :
    ex6.Nodup ∧ ex6.length ≠ 5 ∧ (sample_videos_for_analysis ex6 3).Nodup ∧
    ex6.get ⟨0, by decide⟩ ∈ sample_videos_for_analysis ex6 5 ∧
    ex6.get ⟨ex6.length - 1, by decide⟩ ∈ sample_videos_for_analysis ex6 5 := by
  refine ⟨by decide, by decide, ?_, ?_, ?_⟩
  · exact (c1_sampler_subset ex6 3).2.1 (by decide) (by decide)
  · exact ((c1_sampler_subset ex6 3).2.2 (by decide)).1
  · exact ((c1_sampler_subset ex6 3).2.2 (by decide)).2

theorem analyze_isSome_dated_ge (videos : List Video)
    (h : (analyze_trends videos).isSome) : 3 ≤ (dated_sorted videos).length := by
  unfold analyze_trends at h
  split_ifs at h with h1 h2
  · simp at h
  · simp at h
  · omega

theorem avg_metric_eq (l : List DatedVideo) (key : Video → Nat) (h : l ≠ []) :
    avg_metric l key = (l.map (fun p => (key p.1 : ℚ))).sum / (l.length : ℚ) := by
  unfold avg_metric
  rw [if_neg (by simpa using h)]
  simp

theorem meanSpec_nonneg (l : List DatedVideo) (key : Video → Nat) :
    0 ≤ meanSpec l key := by
  unfold meanSpec
  apply div_nonneg
  · apply List.sum_nonneg
    intro x hx
    rcases List.mem_map.mp hx with ⟨p, _, rfl⟩
    positivity
  · positivity

/-- C4: the date-ascending subset is split at index `len // 2` (the first
half never larger than the second); the classification quantity is
`(second_mean - first_mean) / first_mean * 100`, defined as 0 when the
first-half mean is 0; and the stored trend direction/label classify it as
growth exactly when strictly above `+20`, declining exactly when strictly
below `-20`, and stable otherwise. -/
theorem c4_split_and_classification (videos : List Video)
    (h : (analyze_trends videos).isSome) :
    (first_half videos).length = (dated_sorted videos).length / 2 ∧
    (first_half videos).length ≤ (second_half videos).length ∧
    (((analyze_trends videos).getD default).trend_direction =
        (if 20 < viewChangeSpec videos then "growth"
         else if viewChangeSpec videos < -20 then "declining" else "stable") ∧
     ((analyze_trends videos).getD default).trend_label =
        (if 20 < viewChangeSpec videos then "成長中"
         else if viewChangeSpec videos < -20 then "低下傾向" else "安定")) := by
  have hds := analyze_isSome_dated_ge videos h
  have hfh : first_half videos ≠ [] := by
    unfold first_half
    intro hc
    have := congrArg List.length hc
    simp only [List.length_take, List.length_nil] at this
    omega
  have hsh : second_half videos ≠ [] := by
    unfold second_half
    intro hc
    have := congrArg List.length hc
    simp only [List.length_drop, List.length_nil] at this
    omega
  refine ⟨?_, ?_, ?_⟩
  · unfold first_half
    simp only [List.length_take]
    omega
  · unfold first_half second_half
    simp only [List.length_take, List.length_drop]
    omega
  · rw [analyze_trends_eq_core videos h, Option.getD_some]
    have hF : avg_metric (first_half videos) (·.view_count) = firstMeanSpec videos := by
      rw [avg_metric_eq _ _ hfh]
      rfl
    have hS : avg_metric (second_half videos) (·.view_count) = secondMeanSpec videos := by
      rw [avg_metric_eq _ _ hsh]
      rfl
    have hFnn : 0 ≤ firstMeanSpec videos := meanSpec_nonneg _ _
    have hguard : (0 < firstMeanSpec videos) ↔ ¬ (firstMeanSpec videos = 0) := by
      constructor
      · intro hpos he
        rw [he] at hpos
        exact lt_irrefl 0 hpos
      · intro hne
        rcases lt_or_eq_of_le hFnn with hlt | heq
        · exact hlt
        · exact absurd heq.symm hne
    constructor
    · show (if 20 < (if 0 < avg_metric (first_half videos) (·.view_count) then
          ((avg_metric (second_half videos) (·.view_count) -
            avg_metric (first_half videos) (·.view_count)) /
            avg_metric (first_half videos) (·.view_count)) * 100 else 0) then
          ("growth", "成長中")
        else if (if 0 < avg_metric (first_half videos) (·.view_count) then
          ((avg_metric (second_half videos) (·.view_count) -
            avg_metric (first_half videos) (·.view_count)) /
            avg_metric (first_half videos) (·.view_count)) * 100 else 0) < -20 then
          ("declining", "低下傾向")
        else ("stable", "安定")).1 = _
      rw [hF, hS]
      unfold viewChangeSpec
      split_ifs <;>
        first
          | rfl
          | (exfalso; linarith [hFnn])
          | (exfalso
             exact ‹¬firstMeanSpec videos = 0›
               (le_antisymm (not_lt.mp ‹¬0 < firstMeanSpec videos›) hFnn))
    · show (if 20 < (if 0 < avg_metric (first_half videos) (·.view_count) then
          ((avg_metric (second_half videos) (·.view_count) -
            avg_metric (first_half videos) (·.view_count)) /
            avg_metric (first_half videos) (·.view_count)) * 100 else 0) then
          ("growth", "成長中")
        else if (if 0 < avg_metric (first_half videos) (·.view_count) then
          ((avg_metric (second_half videos) (·.view_count) -
            avg_metric (first_half videos) (·.view_count)) /
            avg_metric (first_half videos) (·.view_count)) * 100 else 0) < -20 then
          ("declining", "低下傾向")
        else ("stable", "安定")).2 = _
      rw [hF, hS]
      unfold viewChangeSpec
      split_ifs <;>
        first
          | rfl
          | (exfalso; linarith [hFnn])
          | (exfalso
             exact ‹¬firstMeanSpec videos = 0›
               (le_antisymm (not_lt.mp ‹¬0 < firstMeanSpec videos›) hFnn))

/-- C4 witness: first-half mean views 100 with second-half means 130, 110
and 70 classify as growth, stable and declining respectively. -/
theorem c4_split_and_classification_witness :
    (analyze_trends exGrowth).isSome ∧
    ((analyze_trends exGrowth).getD default).trend_direction = "growth" ∧
    ((analyze_trends exStable).getD default).trend_direction = "stable" ∧
    ((analyze_trends exDeclining).getD default).trend_direction = "declining" := by
  refine ⟨by decide, ?_, ?_, ?_⟩
  · exact ((c4_split_and_classification exGrowth (by decide)).2.2.1).trans (by decide)
  · exact ((c4_split_and_classification exStable (by decide)).2.2.1).trans (by decide)
  · exact ((c4_split_and_classification exDeclining (by decide)).2.2.1).trans (by decide)

theorem popMeanViews_nonneg (ds : List DatedVideo) : 0 ≤ popMeanViews ds := by
  unfold popMeanViews
  apply div_nonneg
  · apply List.sum_nonneg
    intro x hx
    rcases List.mem_map.mp hx with ⟨p, _, rfl⟩
    positivity
  · positivity

theorem popVarViews_nonneg (ds : List DatedVideo) : 0 ≤ popVarViews ds := by
  unfold popVarViews
  apply div_nonneg
  · apply List.sum_nonneg
    intro x hx
    rcases List.mem_map.mp hx with ⟨p, _, rfl⟩
    exact mul_self_nonneg _
  · positivity

/-- The executable viral test agrees with the square-root formulation of
the source (`threshold = mean + 2*std_dev if std_dev > 0 else mean * 3`;
a post is flagged iff `views > threshold and threshold > 0`). -/
theorem viralB_iff_real (μ v x : ℚ) (hμ : 0 ≤ μ) (hv : 0 ≤ v) :
    viralB μ v x = true ↔
      ((x : ℝ) > (if 0 < Real.sqrt (v : ℝ) then (μ : ℝ) + 2 * Real.sqrt (v : ℝ)
          else 3 * (μ : ℝ)) ∧
       0 < (if 0 < Real.sqrt (v : ℝ) then (μ : ℝ) + 2 * Real.sqrt (v : ℝ)
          else 3 * (μ : ℝ))) := by
  by_cases hvp : 0 < v
  · have hvr : (0 : ℝ) < (v : ℝ) := by exact_mod_cast hvp
    have hs : 0 < Real.sqrt (v : ℝ) := Real.sqrt_pos.mpr hvr
    have hsq : Real.sqrt (v : ℝ) ^ 2 = (v : ℝ) := Real.sq_sqrt (le_of_lt hvr)
    rw [if_pos hs]
    unfold viralB
    rw [if_pos hvp]
    simp only [Bool.and_eq_true, decide_eq_true_eq, Bool.or_eq_true]
    constructor
    · rintro ⟨⟨h1, h2⟩, h3⟩
      have h1r : (μ : ℝ) < (x : ℝ) := by exact_mod_cast h1
      have h2r : (4 : ℝ) * v < ((x : ℝ) - μ) * ((x : ℝ) - μ) := by exact_mod_cast h2
      have hlt : 2 * Real.sqrt (v : ℝ) < (x : ℝ) - μ := by
        have hb : (0 : ℝ) ≤ (x : ℝ) - μ := by linarith
        have hp : (2 * Real.sqrt (v : ℝ)) ^ 2 < ((x : ℝ) - μ) ^ 2 := by
          rw [mul_pow, hsq]
          ring_nf
          ring_nf at h2r
          nlinarith [h2r]
        exact lt_of_pow_lt_pow_left₀ 2 hb hp
      have hμr : (0 : ℝ) ≤ (μ : ℝ) := by exact_mod_cast hμ
      constructor
      · linarith
      · linarith
    · rintro ⟨hgt, hpos⟩
      have hgt' : (μ : ℝ) + 2 * Real.sqrt (v : ℝ) < (x : ℝ) := hgt
      have h2s : (0 : ℝ) ≤ 2 * Real.sqrt (v : ℝ) := by positivity
      refine ⟨⟨?_, ?_⟩, ?_⟩
      · exact_mod_cast (by linarith : (μ : ℝ) < (x : ℝ))
      · have hlt : 2 * Real.sqrt (v : ℝ) < (x : ℝ) - μ := by linarith
        have hp : (2 * Real.sqrt (v : ℝ)) ^ 2 < ((x : ℝ) - μ) ^ 2 :=
          pow_lt_pow_left₀ hlt h2s (by norm_num)
        rw [mul_pow, hsq] at hp
        exact_mod_cast (by nlinarith [hp] : (4 : ℝ) * v < ((x : ℝ) - μ) * ((x : ℝ) - μ))
      · by_cases hμp : 0 < μ
        · exact Or.inl hμp
        · right
          have hμr : (μ : ℝ) ≤ 0 := by exact_mod_cast not_lt.mp hμp
          have hlt : -(μ : ℝ) < 2 * Real.sqrt (v : ℝ) := by linarith
          have hp : (-(μ : ℝ)) ^ 2 < (2 * Real.sqrt (v : ℝ)) ^ 2 :=
            pow_lt_pow_left₀ hlt (by linarith) (by norm_num)
          rw [mul_pow, hsq] at hp
          exact_mod_cast (by nlinarith [hp] : (μ : ℝ) * μ < 4 * v)
  · have hv0 : v = 0 := le_antisymm (not_lt.mp hvp) hv
    subst hv0
    have : Real.sqrt ((0 : ℚ) : ℝ) = 0 := by
      norm_num
    rw [this]
    rw [if_neg (lt_irrefl (0 : ℝ))]
    unfold viralB
    rw [if_neg (lt_irrefl (0 : ℚ))]
    simp only [Bool.and_eq_true, decide_eq_true_eq]
    constructor
    · rintro ⟨h1, h2⟩
      constructor
      · exact_mod_cast h1
      · exact_mod_cast h2
    · rintro ⟨h1, h2⟩
      constructor
      · exact_mod_cast h1
      · exact_mod_cast h2

/-- C5: the stored outlier list renders exactly the `viral_videos`
selection, and a dated post is selected as a viral outlier iff its view
count is strictly greater than the threshold
`mean + 2·stddev` (population statistics over all dated posts) when the
standard deviation is positive, `mean · 3` otherwise — and only when that
threshold is positive; in particular a post whose view count exactly
equals the threshold is not an outlier. -/
theorem c5_viral_threshold (videos : List Video) (p : DatedVideo)
    (h : (analyze_trends videos).isSome) :
    (((analyze_trends videos).getD default).viral_outliers =
      (viral_list (dated_sorted videos)).map
        (fun q => ⟨q.1.title.take 40, q.1.view_count, q.1.upload_date⟩)) ∧
    (p ∈ viral_list (dated_sorted videos) ↔
      (p ∈ dated_sorted videos ∧
        ((p.1.view_count : ℝ) >
          (if 0 < Real.sqrt ((popVarViews (dated_sorted videos) : ℝ)) then
            ((popMeanViews (dated_sorted videos) : ℝ)) +
              2 * Real.sqrt ((popVarViews (dated_sorted videos) : ℝ))
          else 3 * ((popMeanViews (dated_sorted videos) : ℝ))) ∧
         0 < (if 0 < Real.sqrt ((popVarViews (dated_sorted videos) : ℝ)) then
            ((popMeanViews (dated_sorted videos) : ℝ)) +
              2 * Real.sqrt ((popVarViews (dated_sorted videos) : ℝ))
          else 3 * ((popMeanViews (dated_sorted videos) : ℝ)))))) := by
  constructor
  · rw [analyze_trends_eq_core videos h, Option.getD_some]
    rfl
  · unfold viral_list
    rw [List.mem_filter]
    apply and_congr_right
    intro _
    exact viralB_iff_real _ _ _ (popMeanViews_nonneg _) (popVarViews_nonneg _)

/-- C5 witness: on the boundary population `[10,10,10,10,100]` the mean is
28 and the standard deviation 36, so the threshold is exactly 100 and the
100-view post is excluded (strict comparison). -/
theorem c5_viral_threshold_witness :
    (analyze_trends exViral5).isSome ∧
    (tv "2024-01-05" 100, rataDie 2024 1 5) ∈ dated_sorted exViral5 ∧
    (tv "2024-01-05" 100, rataDie 2024 1 5) ∉ viral_list (dated_sorted exViral5) := by
  refine ⟨by decide, by decide, ?_⟩
  intro hmem
  have hiff := (c5_viral_threshold exViral5 (tv "2024-01-05" 100, rataDie 2024 1 5)
    (by decide)).2
  have hread := (hiff.mp hmem).2
  have hμ : popMeanViews (dated_sorted exViral5) = 28 := by decide
  have hv : popVarViews (dated_sorted exViral5) = 1296 := by decide
  rw [hμ, hv] at hread
  have hcast : ((1296 : ℚ) : ℝ) = (36 : ℝ) ^ 2 := by norm_num
  have hsqrt : Real.sqrt ((1296 : ℚ) : ℝ) = 36 := by
    rw [hcast, Real.sqrt_sq (by norm_num : (0:ℝ) ≤ 36)]
  rw [hsqrt] at hread
  rw [if_pos (by norm_num : (0:ℝ) < 36)] at hread
  rcases hread with ⟨hgt, _⟩
  have : ((28 : ℚ) : ℝ) + 2 * 36 = 100 := by norm_num
  rw [this] at hgt
  have hx : (((tv "2024-01-05" 100, rataDie 2024 1 5) : DatedVideo).1.view_count : ℝ) = 100 := by
    norm_num [tv]
  rw [hx] at hgt
  exact lt_irrefl (100 : ℝ) hgt

theorem change_code_eq_spec (F S : ℚ) (hF : 0 ≤ F) :
    (if 0 < F then ((S - F) / F) * 100 else 0) =
    (if F = 0 then 0 else ((S - F) / F) * 100) := by
  split_ifs with h1 h2
  · exact absurd (h2 ▸ h1) (lt_irrefl 0)
  · rfl
  · rfl
  · exact absurd (le_antisymm (not_lt.mp h1) hF) ‹¬F = 0›

theorem addToBuckets_nonempty (acc : List (Nat × List Nat × Nat)) (dow views : Nat)
    (h : ∀ b ∈ acc, b.2.1 ≠ []) : ∀ b ∈ addToBuckets acc dow views, b.2.1 ≠ [] := by
  induction acc with
  | nil =>
    intro b hb
    simp only [addToBuckets, List.mem_singleton] at hb
    subst hb
    simp
  | cons a t ih =>
    intro b hb
    simp only [addToBuckets] at hb
    split at hb
    · rcases List.mem_cons.mp hb with rfl | hb
      · simp
      · exact h b (List.mem_cons_of_mem _ hb)
    · rcases List.mem_cons.mp hb with rfl | hb
      · exact h _ (List.mem_cons_self _ _)
      · exact ih (fun c hc => h c (List.mem_cons_of_mem _ hc)) _ hb

theorem day_performance_nonempty (ds : List DatedVideo) :
    ∀ b ∈ day_performance ds, b.2.1 ≠ [] := by
  unfold day_performance
  suffices hgen : ∀ (l : List DatedVideo) (acc : List (Nat × List Nat × Nat)),
      (∀ b ∈ acc, b.2.1 ≠ []) →
      ∀ b ∈ l.foldl (fun acc p => addToBuckets acc (weekdayOf p.2) p.1.view_count) acc,
        b.2.1 ≠ [] by
    exact hgen ds [] (by simp)
  intro l
  induction l with
  | nil => intro acc hacc b hb; exact hacc b hb
  | cons p t ih =>
    intro acc hacc b hb
    exact ih _ (addToBuckets_nonempty acc _ _ hacc) b hb

/-- C6 (counterexample): on three dated posts with view counts 3, 1, 1 the
exact percent-change is `-200/3 ≈ -66.67`, but the analyzer stores
`round(-200/3, 1) = -66.7`: rounding happens inside `analyze_trends`, not
only at presentation time. -/
theorem c6_counterexample :
    (analyze_trends exC6).isSome ∧
    ((analyze_trends exC6).getD default).performance_trend.view_change_pct ≠
      viewChangeSpec exC6 := by
  decide

/-- C6 (amended): `analyze_trends` rounds at computation time: the stored
percent changes are `round(_, 1)` of the full-precision values, the gap
average is `round(_, 1)` of the exact gap mean, the per-half view/like
means and the population average are truncated to integers, each
day-of-week entry stores the truncated mean, and the day-of-week ranking
is ordered (descending) by those truncated integer means. -/
theorem c6_rounding_inside_analyzer (videos : List Video)
    (h : (analyze_trends videos).isSome) :
    (((analyze_trends videos).getD default).performance_trend.view_change_pct =
      round1 (viewChangeSpec videos)) ∧
    (((analyze_trends videos).getD default).performance_trend.like_change_pct =
      round1 (likeChangeSpec videos)) ∧
    (((analyze_trends videos).getD default).performance_trend.first_half_avg_views =
      ⌊firstMeanSpec videos⌋) ∧
    (((analyze_trends videos).getD default).performance_trend.second_half_avg_views =
      ⌊secondMeanSpec videos⌋) ∧
    (((analyze_trends videos).getD default).performance_trend.first_half_avg_likes =
      ⌊meanSpec (first_half videos) (·.like_count)⌋) ∧
    (((analyze_trends videos).getD default).average_views =
      ⌊popMeanViews (dated_sorted videos)⌋) ∧
    (gapsOf videos ≠ [] →
      ((analyze_trends videos).getD default).avg_gap_days =
        some (round1 (((gapsOf videos).sum : ℚ) / ((gapsOf videos).length : ℚ)))) ∧
    (List.Pairwise (fun a b => b.avg_views ≤ a.avg_views)
      ((analyze_trends videos).getD default).day_of_week_performance) ∧
    (∀ d ∈ ((analyze_trends videos).getD default).day_of_week_performance,
      ∃ b ∈ day_performance (dated_sorted videos),
        d = ⟨dayNameJa b.1,
             ⌊((b.2.1.map (fun v => (v : ℚ))).sum) / (b.2.1.length : ℚ)⌋,
             b.2.2⟩) := by
  have hds := analyze_isSome_dated_ge videos h
  have hfh : first_half videos ≠ [] := by
    unfold first_half
    intro hc
    have := congrArg List.length hc
    simp only [List.length_take, List.length_nil] at this
    omega
  have hsh : second_half videos ≠ [] := by
    unfold second_half
    intro hc
    have := congrArg List.length hc
    simp only [List.length_drop, List.length_nil] at this
    omega
  have hFv : avg_metric (first_half videos) (·.view_count) = firstMeanSpec videos := by
    rw [avg_metric_eq _ _ hfh]; rfl
  have hSv : avg_metric (second_half videos) (·.view_count) = secondMeanSpec videos := by
    rw [avg_metric_eq _ _ hsh]; rfl
  have hFl : avg_metric (first_half videos) (·.like_count) =
      meanSpec (first_half videos) (·.like_count) := by
    rw [avg_metric_eq _ _ hfh]; rfl
  have hSl : avg_metric (second_half videos) (·.like_count) =
      meanSpec (second_half videos) (·.like_count) := by
    rw [avg_metric_eq _ _ hsh]; rfl
  rw [analyze_trends_eq_core videos h, Option.getD_some]
  refine ⟨?_, ?_, ?_, ?_, ?_, ?_, ?_, ?_, ?_⟩
  · show round1 (if 0 < avg_metric (first_half videos) (·.view_count) then
        ((avg_metric (second_half videos) (·.view_count) -
          avg_metric (first_half videos) (·.view_count)) /
          avg_metric (first_half videos) (·.view_count)) * 100 else 0) = _
    rw [hFv, hSv]
    unfold viewChangeSpec
    exact congrArg round1 (change_code_eq_spec _ _ (meanSpec_nonneg _ _))
  · show round1 (if 0 < avg_metric (first_half videos) (·.like_count) then
        ((avg_metric (second_half videos) (·.like_count) -
          avg_metric (first_half videos) (·.like_count)) /
          avg_metric (first_half videos) (·.like_count)) * 100 else 0) = _
    rw [hFl, hSl]
    unfold likeChangeSpec
    exact congrArg round1 (change_code_eq_spec _ _ (meanSpec_nonneg _ _))
  · show ⌊avg_metric (first_half videos) (·.view_count)⌋ = _
    rw [hFv]
  · show ⌊avg_metric (second_half videos) (·.view_count)⌋ = _
    rw [hSv]
  · show ⌊avg_metric (first_half videos) (·.like_count)⌋ = _
    rw [hFl]
  · rfl
  · intro hg
    show (match gapsOf videos with
      | [] => ((none : Option ℚ), (none : Option ℤ), (none : Option ℤ))
      | g :: gs =>
        (some (round1 (((g :: gs).sum : ℚ) / (((g :: gs).length : ℚ)))),
         some (gs.foldl max g), some (gs.foldl min g))).1 = _
    cases hgg : gapsOf videos with
    | nil => exact absurd hgg hg
    | cons g gs => rfl
  · show List.Pairwise (fun a b => b.avg_views ≤ a.avg_views)
      (if day_performance (dated_sorted videos) = [] then []
       else sSort (fun a b => b.avg_views ≤ a.avg_views)
        ((day_performance (dated_sorted videos)).map (fun b =>
        (⟨dayNameJa b.1,
          (if b.2.1 = [] then 0
           else ⌊((b.2.1.map (fun v => (v : ℚ))).sum) / (b.2.1.length : ℚ)⌋),
          b.2.2⟩ : DayStat))))
    split_ifs with hdp
    · simp
    · refine List.Pairwise.imp ?_
        (pairwise_sSort (fun a b => decide (b.avg_views ≤ a.avg_views))
          (fun a b => by
            rcases Int.le_total b.avg_views a.avg_views with hle | hle
            · exact Or.inl (by simpa using hle)
            · exact Or.inr (by simpa using hle))
          (fun a b c hab hbc => by
            simp only [decide_eq_true_eq] at *
            omega) _)
      intro a b hab
      simpa using hab
  · intro d hd
    revert hd
    show d ∈ (if day_performance (dated_sorted videos) = [] then []
      else sSort (fun a b => b.avg_views ≤ a.avg_views)
        ((day_performance (dated_sorted videos)).map (fun b =>
        (⟨dayNameJa b.1,
          (if b.2.1 = [] then 0
           else ⌊((b.2.1.map (fun v => (v : ℚ))).sum) / (b.2.1.length : ℚ)⌋),
          b.2.2⟩ : DayStat)))) → _
    split_ifs with hdp
    · intro hc
      simp at hc
    · intro hd
      rw [mem_sSort] at hd
      rcases List.mem_map.mp hd with ⟨b, hb, rfl⟩
      refine ⟨b, hb, ?_⟩
      have hne := day_performance_nonempty (dated_sorted videos) b hb
      simp only [if_neg hne]

/-- C6 (amended) witness: the rounding equalities instantiated on the
concrete population `exC6`. -/
theorem c6_rounding_inside_analyzer_witness :
    (analyze_trends exC6).isSome ∧ gapsOf exC6 ≠ [] ∧
    ((analyze_trends exC6).getD default).performance_trend.view_change_pct =
      round1 (viewChangeSpec exC6) ∧
    ((analyze_trends exC6).getD default).avg_gap_days =
      some (round1 (((gapsOf exC6).sum : ℚ) / ((gapsOf exC6).length : ℚ))) := by
  refine ⟨by decide, by decide, ?_, ?_⟩
  · exact (c6_rounding_inside_analyzer exC6 (by decide)).1
  · exact (c6_rounding_inside_analyzer exC6 (by decide)).2.2.2.2.2.2.1 (by decide)

/-- C7 (counterexample): `analyze_trends` stores the outliers in date
order and the formatter lists `viral[:3]` — the first three by date, not
the three highest-view outliers.  On `ex21` the outlier list is
`[1000, 1001, 1002, 1003]` (date-ascending); the unique highest-view
outlier (1003 views) is a stored outlier yet its detail line does not
appear in the formatted output. -/
theorem c7_counterexample :
    (analyze_trends ex21).isSome ∧
    (((analyze_trends ex21).getD default).viral_outliers.length = 4) ∧
    ((⟨"", 1003, "2024-01-21"⟩ : ViralVideo) ∈
      ((analyze_trends ex21).getD default).viral_outliers) ∧
    (∀ o ∈ ((analyze_trends ex21).getD default).viral_outliers, o.views ≤ 1003) ∧
    (∀ o ∈ ((analyze_trends ex21).getD default).viral_outliers,
      o.views = 1003 → o = ⟨"", 1003, "2024-01-21"⟩) ∧
    viralDetailLine ⟨"", 1003, "2024-01-21"⟩ ∉
      formatParts ((analyze_trends ex21).getD default) := by
  decide

/-- C7 (amended): for every trend report with a non-empty outlier list the
formatter emits the full outlier count on its own line and then detail
lines for exactly the FIRST `min(3, count)` entries of the stored list
(which `analyze_trends` orders by date, not by views) — so at most 3
outliers are listed explicitly. -/
theorem c7_viral_listing (r : TrendReport) (h : r.viral_outliers ≠ []) :
    formatParts r =
      (periodLine r :: (freqSection r ++ perfSection r ++ engSection r ++ daySection r ++
        [("全体平均再生数: " ++ commaInt r.average_views)])) ++
      (("バイラル投稿（平均の2σ超え）: " ++ toString r.viral_outliers.length ++ "本") ::
        (r.viral_outliers.take 3).map viralDetailLine) ∧
    ((r.viral_outliers.take 3).map viralDetailLine).length =
      min 3 r.viral_outliers.length := by
  cases hv : r.viral_outliers with
  | nil => exact absurd hv h
  | cons v vs =>
    constructor
    · simp only [formatParts, viralSection, hv]
      simp [List.append_assoc]
    · simp [hv, List.length_take]
      omega

/-- C7 witness: the amended listing theorem instantiated on a concrete
report with a single outlier. -/
theorem c7_viral_listing_witness :
    ((rEx7.viral_outliers.take 3).map viralDetailLine).length =
      min 3 rEx7.viral_outliers.length :=
  (c7_viral_listing rEx7 (by decide)).2

theorem periodLine_head (a : TrendReport) : (periodLine a).data.head? = some '分' := by
  unfold periodLine
  simp [String.data_append]

theorem engLine_head (e : EngagementTrend) : (engLine e).data.head? = some 'エ' := by
  unfold engLine
  simp [String.data_append]

theorem freqSection_head (a : TrendReport) (p : String) (hp : p ∈ freqSection a) :
    p.data.head? = some '投' := by
  unfold freqSection at hp
  cases hf : a.posting_frequency with
  | none => rw [hf] at hp; dsimp only at hp; simp at hp
  | some f =>
    rw [hf] at hp
    dsimp only at hp
    by_cases hz : f = 0
    · rw [if_pos hz] at hp
      simp at hp
    · rw [if_neg hz] at hp
      rcases List.mem_singleton.mp hp with rfl
      simp [String.data_append]

theorem perfSection_head (a : TrendReport) (p : String) (hp : p ∈ perfSection a) :
    p.data.head? = some 'パ' ∨ p.data.head? = some ' ' := by
  unfold perfSection at hp
  rcases List.mem_cons.mp hp with rfl | hp
  · left; simp [String.data_append]
  rcases List.mem_cons.mp hp with rfl | hp
  · right; simp [String.data_append]
  rcases List.mem_cons.mp hp with rfl | hp
  · right; simp [String.data_append]
  · simp at hp

theorem daySection_head (a : TrendReport) (p : String) (hp : p ∈ daySection a) :
    p.data.head? = some '最' := by
  unfold daySection at hp
  cases hd : a.day_of_week_performance with
  | nil => rw [hd] at hp; dsimp only at hp; simp at hp
  | cons best rest =>
    rw [hd] at hp
    dsimp only at hp
    rcases List.mem_singleton.mp hp with rfl
    simp [String.data_append]

theorem viralDetailLine_head (v : ViralVideo) :
    (viralDetailLine v).data.head? = some ' ' := by
  unfold viralDetailLine
  simp [String.data_append]

theorem viralSection_head (a : TrendReport) (p : String) (hp : p ∈ viralSection a) :
    p.data.head? = some '全' ∨ p.data.head? = some 'バ' ∨ p.data.head? = some ' ' := by
  unfold viralSection at hp
  rcases List.mem_cons.mp hp with rfl | hp
  · left; simp [String.data_append]
  cases hv : a.viral_outliers with
  | nil => rw [hv] at hp; dsimp only at hp; simp at hp
  | cons v vs =>
    rw [hv] at hp
    dsimp only at hp
    rcases List.mem_cons.mp hp with rfl | hp
    · right; left; simp [String.data_append]
    · rcases List.mem_map.mp hp with ⟨w, _, rfl⟩
      right; right
      exact viralDetailLine_head w

/-- Every line of the formatted output either belongs to the frequency or
engagement section, or starts with a character identifying its section. -/
theorem formatParts_head_cases (r : TrendReport) (p : String)
    (hp : p ∈ formatParts r) :
    p.data.head? = some '分' ∨ p ∈ freqSection r ∨ p ∈ engSection r ∨
    p.data.head? = some 'パ' ∨ p.data.head? = some ' ' ∨ p.data.head? = some '最' ∨
    p.data.head? = some '全' ∨ p.data.head? = some 'バ' := by
  unfold formatParts at hp
  rcases List.mem_cons.mp hp with rfl | hp
  · exact Or.inl (periodLine_head r)
  rw [List.mem_append] at hp
  rcases hp with hp | hp
  rotate_left
  · rcases viralSection_head r p hp with h | h | h
    · exact Or.inr (Or.inr (Or.inr (Or.inr (Or.inr (Or.inr (Or.inl h))))))
    · exact Or.inr (Or.inr (Or.inr (Or.inr (Or.inr (Or.inr (Or.inr h))))))
    · exact Or.inr (Or.inr (Or.inr (Or.inr (Or.inl h))))
  rw [List.mem_append] at hp
  rcases hp with hp | hp
  rotate_left
  · exact Or.inr (Or.inr (Or.inr (Or.inr (Or.inr (Or.inl (daySection_head r p hp))))))
  rw [List.mem_append] at hp
  rcases hp with hp | hp
  rotate_left
  · exact Or.inr (Or.inr (Or.inl hp))
  rw [List.mem_append] at hp
  rcases hp with hp | hp
  · exact Or.inr (Or.inl hp)
  · rcases perfSection_head r p hp with h | h
    · exact Or.inr (Or.inr (Or.inr (Or.inl h)))
    · exact Or.inr (Or.inr (Or.inr (Or.inr (Or.inl h))))

theorem engSection_head (a : TrendReport) (p : String) (hp : p ∈ engSection a) :
    p.data.head? = some 'エ' := by
  unfold engSection at hp
  cases he : a.engagement_trend with
  | none => rw [he] at hp; dsimp only at hp; simp at hp
  | some e =>
    rw [he] at hp
    dsimp only at hp
    rcases List.mem_singleton.mp hp with rfl
    exact engLine_head e

theorem engLine_not_mem (r : TrendReport) (he : r.engagement_trend = none)
    (e : EngagementTrend) : engLine e ∉ formatParts r := by
  intro hmem
  have hE := engLine_head e
  rcases formatParts_head_cases r _ hmem with h | h | h | h | h | h | h | h
  · rw [hE] at h; exact absurd h (by decide)
  · have := freqSection_head r _ h
    rw [hE] at this; exact absurd this (by decide)
  · unfold engSection at h
    rw [he] at h
    simp at h
  · rw [hE] at h; exact absurd h (by decide)
  · rw [hE] at h; exact absurd h (by decide)
  · rw [hE] at h; exact absurd h (by decide)
  · rw [hE] at h; exact absurd h (by decide)
  · rw [hE] at h; exact absurd h (by decide)

theorem eng_rates_eq_filter (half : List DatedVideo) :
    eng_rates half =
      (half.filter (fun p => 0 < p.1.view_count)).map
        (fun p => (p.1.like_count : ℚ) / (p.1.view_count : ℚ) * 100) := by
  unfold eng_rates
  induction half with
  | nil => rfl
  | cons p t ih =>
    by_cases hp : 0 < p.1.view_count
    · rw [List.filterMap_cons, List.filter_cons_of_pos (by simpa using hp)]
      simp only [if_pos hp, List.map_cons]
      rw [ih]
    · rw [List.filterMap_cons, List.filter_cons_of_neg (by simpa using hp)]
      simp only [if_neg hp]
      rw [ih]

/-- C8: each half's engagement-rate list is `like/view·100` over exactly
the posts of that half with positive views (zero-view posts are excluded,
not counted as 0%); when either half has no positive-view post the
`engagement_trend` sub-result is omitted and the formatter emits no
engagement-trend line; when both halves have one, the stored sub-result is
the pair of (rounded) per-half averages of those rate lists. -/
theorem c8_engagement_halves (videos : List Video)
    (h : (analyze_trends videos).isSome) :
    (eng_rates (first_half videos) =
      ((first_half videos).filter (fun p => 0 < p.1.view_count)).map
        (fun p => (p.1.like_count : ℚ) / (p.1.view_count : ℚ) * 100)) ∧
    (eng_rates (second_half videos) =
      ((second_half videos).filter (fun p => 0 < p.1.view_count)).map
        (fun p => (p.1.like_count : ℚ) / (p.1.view_count : ℚ) * 100)) ∧
    ((eng_rates (first_half videos) = [] ∨ eng_rates (second_half videos) = []) →
      ((analyze_trends videos).getD default).engagement_trend = none ∧
      ∀ e : EngagementTrend,
        engLine e ∉ formatParts ((analyze_trends videos).getD default)) ∧
    (eng_rates (first_half videos) ≠ [] → eng_rates (second_half videos) ≠ [] →
      ((analyze_trends videos).getD default).engagement_trend =
        some ⟨round2 ((eng_rates (first_half videos)).sum /
                ((eng_rates (first_half videos)).length : ℚ)),
              round2 ((eng_rates (second_half videos)).sum /
                ((eng_rates (second_half videos)).length : ℚ))⟩) := by
  rw [analyze_trends_eq_core videos h, Option.getD_some]
  refine ⟨eng_rates_eq_filter _, eng_rates_eq_filter _, ?_, ?_⟩
  · intro hor
    have hnone : (analyze_core videos).engagement_trend = none := by
      show (if eng_rates (first_half videos) ≠ [] ∧ eng_rates (second_half videos) ≠ [] then
        some (⟨round2 ((eng_rates (first_half videos)).sum /
                ((eng_rates (first_half videos)).length : ℚ)),
              round2 ((eng_rates (second_half videos)).sum /
                ((eng_rates (second_half videos)).length : ℚ))⟩ : EngagementTrend)
        else none) = none
      rw [if_neg (by tauto)]
    exact ⟨hnone, fun e => engLine_not_mem _ hnone e⟩
  · intro h1 h2
    show (if eng_rates (first_half videos) ≠ [] ∧ eng_rates (second_half videos) ≠ [] then
      some (⟨round2 ((eng_rates (first_half videos)).sum /
              ((eng_rates (first_half videos)).length : ℚ)),
            round2 ((eng_rates (second_half videos)).sum /
              ((eng_rates (second_half videos)).length : ℚ))⟩ : EngagementTrend)
      else none) = _
    rw [if_pos ⟨h1, h2⟩]

/-- C8 witness: on `exZeroEng` the first half is a single zero-view post,
so the engagement sub-result is omitted and no engagement line is
rendered; on `exGrowth` both halves have positive views and the
sub-result is present. -/
theorem c8_engagement_halves_witness :
    (analyze_trends exZeroEng).isSome ∧
    eng_rates (first_half exZeroEng) = [] ∧
    ((analyze_trends exZeroEng).getD default).engagement_trend = none ∧
    engLine ⟨0, 0⟩ ∉ formatParts ((analyze_trends exZeroEng).getD default) ∧
    ((analyze_trends exGrowth).getD default).engagement_trend =
      some ⟨round2 ((eng_rates (first_half exGrowth)).sum /
              ((eng_rates (first_half exGrowth)).length : ℚ)),
            round2 ((eng_rates (second_half exGrowth)).sum /
              ((eng_rates (second_half exGrowth)).length : ℚ))⟩ := by
  refine ⟨by decide, by decide, ?_, ?_, ?_⟩
  · exact ((c8_engagement_halves exZeroEng (by decide)).2.2.1 (Or.inl (by decide))).1
  · exact ((c8_engagement_halves exZeroEng (by decide)).2.2.1 (Or.inl (by decide))).2 _
  · exact (c8_engagement_halves exGrowth (by decide)).2.2.2 (by decide) (by decide)

/-- C10: the posting-frequency line is omitted whenever the stored
`posting_frequency` is falsy — both when it is `None` (zero span) and when
the rounded value is the float `0.0` — and rendered only for a truthy
value: the frequency section is empty and no output line starts with the
frequency marker; conversely a present non-zero frequency makes the
section non-empty. -/
theorem c10_freq_line_falsy (r : TrendReport) :
    ((r.posting_frequency = none ∨ r.posting_frequency = some 0) →
      freqSection r = [] ∧
      ∀ p ∈ formatParts r, p.data.head? ≠ some '投') ∧
    (∀ q, r.posting_frequency = some q → q ≠ 0 → freqSection r ≠ []) := by
  constructor
  · intro hfalsy
    have hempty : freqSection r = [] := by
      unfold freqSection
      rcases hfalsy with hf | hf
      · rw [hf]
      · rw [hf]
        dsimp only
        rw [if_pos rfl]
    refine ⟨hempty, ?_⟩
    intro p hp hc
    rcases formatParts_head_cases r _ hp with h | h | h | h | h | h | h | h
    · rw [h] at hc; exact absurd hc (by decide)
    · rw [hempty] at h; simp at h
    · have := engSection_head r _ h
      rw [this] at hc; exact absurd hc (by decide)
    · rw [h] at hc; exact absurd hc (by decide)
    · rw [h] at hc; exact absurd hc (by decide)
    · rw [h] at hc; exact absurd hc (by decide)
    · rw [h] at hc; exact absurd hc (by decide)
    · rw [h] at hc; exact absurd hc (by decide)
  · intro q hq hne
    unfold freqSection
    rw [hq]
    dsimp only
    rw [if_neg hne]
    simp

/-- C10 witness: three dated posts spread over 421 days give
`posting_frequency = some 0.0` — present but falsy — and the frequency
section is empty exactly as for an absent frequency. -/
theorem c10_freq_line_falsy_witness :
    ((analyze_trends ex421).getD default).posting_frequency = some 0 ∧
    freqSection ((analyze_trends ex421).getD default) = [] :=
  ⟨by decide, ((c10_freq_line_falsy _).1 (Or.inr (by decide))).1⟩

/-- One step of `fetch_competitor_data`: a failed video fetch yields an
error entry for the cleaned username. -/
theorem fetch_step_failed (fp : String → Option TikTokProfile)
    (fv : String → Option (List Video)) (raw : String) (rest : List String)
    (hname : extract_username (pyStrip raw) ≠ "")
    (hfail : fv (extract_username (pyStrip raw)) = none) :
    fetch_competitor_data fp fv (raw :: rest) =
      Competitor.failed (extract_username (pyStrip raw)) ::
        fetch_competitor_data fp fv rest := by
  unfold fetch_competitor_data
  rw [List.filterMap_cons]
  dsimp only
  rw [if_neg hname, hfail]

/-- One step of `fetch_competitor_data`: a successful video fetch yields a
stats entry carrying the cleaned username. -/
theorem fetch_step_ok (fp : String → Option TikTokProfile)
    (fv : String → Option (List Video)) (raw : String) (rest : List String)
    (vids : List Video)
    (hname : extract_username (pyStrip raw) ≠ "")
    (hok : fv (extract_username (pyStrip raw)) = some vids) :
    ∃ s : CompStats, s.username = extract_username (pyStrip raw) ∧
      fetch_competitor_data fp fv (raw :: rest) =
        Competitor.ok s :: fetch_competitor_data fp fv rest := by
  unfold fetch_competitor_data
  rw [List.filterMap_cons]
  dsimp only
  rw [if_neg hname, hok]
  exact ⟨_, rfl, rfl⟩

/-- C9: a competitor whose video-metadata fetch fails is recorded by
identifier in the failed list and excluded from the comparison-table
columns, while every remaining competitor gets a populated column; with 3
identifiers and 1 failure the table header carries exactly the 2
surviving usernames, the failed identifier is reported on the final line,
and the comparison is not aborted or emptied. -/
theorem c9_partial_failure (fp : String → Option TikTokProfile)
    (fv : String → Option (List Video)) (main : Option MainStats)
    (u₁ u₂ u₃ : String)
    (h₁ : extract_username (pyStrip u₁) ≠ "")
    (h₂ : extract_username (pyStrip u₂) ≠ "")
    (h₃ : extract_username (pyStrip u₃) ≠ "")
    (hfv₁ : (fv (extract_username (pyStrip u₁))).isSome)
    (hfv₂ : fv (extract_username (pyStrip u₂)) = none)
    (hfv₃ : (fv (extract_username (pyStrip u₃))).isSome) :
    ((failedCompetitors (fetch_competitor_data fp fv [u₁, u₂, u₃])).map
        Competitor.username = [extract_username (pyStrip u₂)]) ∧
    ((validCompetitors (fetch_competitor_data fp fv [u₁, u₂, u₃])).map
        CompStats.username =
      [extract_username (pyStrip u₁), extract_username (pyStrip u₃)]) ∧
    (headerRow (validCompetitors (fetch_competitor_data fp fv [u₁, u₂, u₃])) =
      "| 指標 | **分析対象** |" ++
        (" @" ++ extract_username (pyStrip u₁) ++ " |") ++
        (" @" ++ extract_username (pyStrip u₃) ++ " |")) ∧
    ((format_competitor_parts main (fetch_competitor_data fp fv [u₁, u₂, u₃])).getLast? =
      some ("※ 取得失敗: " ++ extract_username (pyStrip u₂))) ∧
    (format_competitor_comparison main (fetch_competitor_data fp fv [u₁, u₂, u₃]) =
      String.intercalate "\n"
        (format_competitor_parts main (fetch_competitor_data fp fv [u₁, u₂, u₃]))) := by
  rcases Option.isSome_iff_exists.mp hfv₁ with ⟨vids₁, hv₁⟩
  rcases Option.isSome_iff_exists.mp hfv₃ with ⟨vids₃, hv₃⟩
  obtain ⟨s₁, hs₁u, hs₁⟩ := fetch_step_ok fp fv u₁ [u₂, u₃] vids₁ h₁ hv₁
  obtain ⟨s₃, hs₃u, hs₃⟩ := fetch_step_ok fp fv u₃ [] vids₃ h₃ hv₃
  have hnil : fetch_competitor_data fp fv [] = [] := rfl
  have hcomps : fetch_competitor_data fp fv [u₁, u₂, u₃] =
      [Competitor.ok s₁, Competitor.failed (extract_username (pyStrip u₂)),
       Competitor.ok s₃] := by
    rw [hs₁, fetch_step_failed fp fv u₂ [u₃] h₂ hfv₂, hs₃, hnil]
  rw [hcomps]
  have hvalid : validCompetitors
      [Competitor.ok s₁, Competitor.failed (extract_username (pyStrip u₂)),
       Competitor.ok s₃] = [s₁, s₃] := rfl
  have hfailed : failedCompetitors
      [Competitor.ok s₁, Competitor.failed (extract_username (pyStrip u₂)),
       Competitor.ok s₃] =
      [Competitor.failed (extract_username (pyStrip u₂))] := rfl
  refine ⟨?_, ?_, ?_, ?_, ?_⟩
  · rw [hfailed]
    rfl
  · rw [hvalid]
    simp [hs₁u, hs₃u]
  · rw [hvalid]
    apply String.ext
    simp [headerRow, String.join, hs₁u, hs₃u, String.data_append]
  · unfold format_competitor_parts
    dsimp only
    rw [hvalid, hfailed]
    rw [if_neg (by simp)]
    simp
    rfl
  · unfold format_competitor_comparison
    rw [if_neg (by simp), if_neg (by rw [hvalid]; simp)]

/-- C9 witness: three identifiers where only `"bob"`'s video fetch fails
produce two populated competitor columns and a failed list `["bob"]`. -/
theorem c9_partial_failure_witness :
    (failedCompetitors (fetch_competitor_data fpEx fvEx ["alice", "bob", "carol"])).map
        Competitor.username = ["bob"] ∧
    (validCompetitors (fetch_competitor_data fpEx fvEx ["alice", "bob", "carol"])).map
        CompStats.username = ["alice", "carol"] ∧
    headerRow (validCompetitors (fetch_competitor_data fpEx fvEx ["alice", "bob", "carol"])) =
      "| 指標 | **分析対象** | @alice | @carol |" := by
  have h := c9_partial_failure fpEx fvEx none "alice" "bob" "carol"
    (by decide) (by decide) (by decide) (by decide) (by decide) (by decide)
  refine ⟨h.1.trans (by decide), h.2.1.trans (by decide), h.2.2.1.trans ?_⟩
  apply String.ext
  simp [String.data_append]
  decide
